import Mathlib

/-!
Shallow embedding of the bank-statement chunking pipeline
(`bank_statement_chunker`): row classification, debit/credit
reconciliation, continuation-row merging, header normalization, CSV line
folding, and chunk-window assembly, together with proofs checking the
natural-language specification against the code.

Conventions of the embedding:
* a pandas/Python cell is `Option String`: `none` models Python `None`
  and pandas `NaN` (so `pd.isna` is `Option.isNone`); real values are
  `some s`;
* Python `float(...)` applied to the decimal strings appearing in bank
  statements is modelled by `pyFloat?`, an exact parser into `PyNum`
  covering signed decimal literals with optional fraction and exponent
  (Python-only forms such as `inf`, `nan` and underscore separators are
  not modelled, and binary rounding is ignored: amounts are exact);
* code that can raise a Python exception is embedded in `Except Unit`;
* the column map built by `normalize_headers` is an association list
  `List (String × Nat)` with first-occurrence-wins insertion, matching
  the Python dict.
-/

namespace BankChunker

/-- Strip leading and trailing whitespace from a character list. -/
def trimData (cs : List Char) : List Char :=
  ((cs.dropWhile Char.isWhitespace).reverse.dropWhile Char.isWhitespace).reverse

/-- Python `str.strip()` (leading/trailing whitespace removal). -/
def pyStrip (s : String) : String := ⟨trimData s.data⟩

/-- Python `str.lower()`. -/
def pyLower (s : String) : String := ⟨s.data.map Char.toLower⟩

/-- Python `str.replace(c, '')`: delete every occurrence of character `c`. -/
def removeChar (c : Char) (s : String) : String := ⟨s.data.filter (· ≠ c)⟩

/-- `str(val).replace(',', '')` as used on amount cells. -/
def removeCommas (s : String) : String := removeChar ',' s

/-- Python `str.split(sep)` with a one-character separator: split on every
occurrence, never collapsing (worker, recursing over the remainder). -/
def splitCharGo (sep : Char) (acc : List Char) : List Char → List String
  | [] => [⟨acc.reverse⟩]
  | c :: t =>
    if c = sep then ⟨acc.reverse⟩ :: splitCharGo sep [] t
    else splitCharGo sep (c :: acc) t

/-- Python `s.split(sep)` for a one-character separator. -/
def splitChar (sep : Char) (s : String) : List String :=
  splitCharGo sep [] s.data

/-- Python `sep.join(parts)`. -/
def joinSep (sep : String) : List String → String
  | [] => ""
  | [x] => x
  | x :: xs => x ++ sep ++ joinSep sep xs

/-- Decimal digit character for `d < 10`, as produced by Python `str(int)`. -/
def digitChar (d : Nat) : Char :=
  match d with
  | 0 => '0' | 1 => '1' | 2 => '2' | 3 => '3' | 4 => '4'
  | 5 => '5' | 6 => '6' | 7 => '7' | 8 => '8' | _ => '9'

/-- Fuel-bounded decimal digit expansion (structural so that it reduces
in the kernel); adequate whenever `n < fuel`. -/
def natDigitsGo : Nat → Nat → List Char
  | 0, _ => []
  | fuel + 1, n =>
    if n < 10 then [digitChar n]
    else natDigitsGo fuel (n / 10) ++ [digitChar (n % 10)]

/-- The decimal digit string of a natural number, mirroring Python `str(n)`. -/
def natDigits (n : Nat) : List Char := natDigitsGo (n + 1) n

/-- Python `str(n)` for a natural number. -/
def natStr (n : Nat) : String := ⟨natDigits n⟩

/-- Evaluate a digit list back to the number it denotes (decimal). -/
def digitsVal (cs : List Char) : Nat :=
  cs.foldl (fun a c => a * 10 + (c.toNat - 48)) 0

section PyFloat

/-- Split a character list into its leading run of decimal digits and the
rest (helper for the `float` literal grammar). -/
def spanDigits (cs : List Char) : List Char × List Char :=
  cs.span Char.isDigit

/-- Parse an optional sign, returning `true` for `-`. -/
def parseSign : List Char → Bool × List Char
  | '+' :: r => (false, r)
  | '-' :: r => (true, r)
  | cs => (false, cs)

/-- An exact (unnormalized) fraction `num / den` with `den` a power of
ten: the value of a parsed decimal literal. Kept unnormalized so that all
tests on it reduce in the kernel. -/
structure PyNum where
  num : Int
  den : Nat
deriving Repr

/-- The parsed value is non-zero. -/
def pyNumNZ (x : PyNum) : Bool := x.num ≠ 0

/-- Exact comparison `x < y` of parsed values (denominators are powers of
ten, hence positive). -/
def pyNumLt (x y : PyNum) : Bool := x.num * (y.den : Int) < y.num * (x.den : Int)

/-- Exact rational value of a parsed decimal literal: sign, joined digit
mantissa, number of fraction digits, signed exponent. -/
def decValue (neg : Bool) (m : Nat) (k : Nat) (e : Int) : PyNum :=
  let sign : Int := if neg then -1 else 1
  if 0 ≤ e then ⟨sign * (m : Int) * (10 : Int) ^ e.toNat, 10 ^ k⟩
  else ⟨sign * (m : Int), 10 ^ (k + (-e).toNat)⟩

/-- Parse the optional exponent part (`e`/`E`, sign, digits) of a float
literal; fails unless the remainder is exactly a well-formed exponent or
empty. Returns the exponent value. -/
def parseExp : List Char → Option Int
  | [] => some 0
  | e :: r =>
    if e = 'e' ∨ e = 'E' then
      let (neg, r1) := parseSign r
      let (ds, r2) := spanDigits r1
      if ds.isEmpty ∨ ¬ r2.isEmpty then none
      else some (if neg then -(digitsVal ds : Int) else (digitsVal ds : Int))
    else none

/-- Model of Python `float(s)` on decimal literals: optional surrounding
whitespace, optional sign, integer and/or fraction digits, optional
exponent. Returns the exact rational value, or `none` where Python raises
`ValueError`. -/
def pyFloat? (s : String) : Option PyNum :=
  let cs := (pyStrip s).data
  let (neg, r0) := parseSign cs
  let (ip, r1) := spanDigits r0
  match r1 with
  | '.' :: r2 =>
    let (fp, r3) := spanDigits r2
    if ip.isEmpty ∧ fp.isEmpty then none
    else
      match parseExp r3 with
      | some e => some (decValue neg (digitsVal (ip ++ fp)) fp.length e)
      | none => none
  | r1 =>
    if ip.isEmpty then none
    else
      match parseExp r1 with
      | some e => some (decValue neg (digitsVal ip) 0 e)
      | none => none

end PyFloat

/-- A table cell: `none` is Python `None` / pandas `NaN`. -/
abbrev Cell := Option String

/-- A table row: ordered cells. -/
abbrev Row := List Cell

/-- Python `str(cell)`: `None` renders as `"None"`. -/
def pyStr (c : Cell) : String :=
  match c with
  | none => "None"
  | some s => s

/-- Python truthiness of a cell (`None` and `""` are falsy). -/
def cellTruthy (c : Cell) : Bool :=
  match c with
  | none => false
  | some s => s ≠ ""

/-- The role → column-index map built by `normalize_headers`
(a Python dict keyed by role name). -/
abbrev ColMap := List (String × Nat)

/-- Dict lookup `m.get(k)`. -/
def cmFind? (m : ColMap) (k : String) : Option Nat :=
  match m.find? (fun p => p.1 = k) with
  | some p => some p.2
  | none => none

/-- Dict lookup with default, `m.get(k, d)`. -/
def cmGet (m : ColMap) (k : String) (d : Nat) : Nat :=
  (cmFind? m k).getD d

/-- Dict membership `k in m`. -/
def cmMem (m : ColMap) (k : String) : Bool := (cmFind? m k).isSome

/-! ## row_handler.py -/

/-- `is_numeric_amount(val)` from `row_handler.py`: falsy or missing cells
are not amounts; otherwise strip, delete commas and spaces, and test
whether Python `float` accepts the result. -/
def is_numeric_amount (c : Cell) : Bool :=
  if cellTruthy c = false then false
  else (pyFloat? (removeChar ' ' (removeCommas (pyStrip (pyStr c))))).isSome

/-- The recurring cell test `row[idx] and str(row[idx]).strip()`:
the cell is truthy and not whitespace-only. -/
def cellPopulated (c : Cell) : Bool :=
  cellTruthy c && pyStrip (pyStr c) ≠ ""

/-- A mapped role's cell is populated: `col_type in col_map`, the index is
in range, and the cell passes `cellPopulated`. -/
def rolePopulated (row : Row) (col_map : ColMap) (role : String) : Bool :=
  match cmFind? col_map role with
  | some idx =>
    match row[idx]? with
    | some c => cellPopulated c
    | none => false
  | none => false

/-- The `pd.Series` branch of `is_transaction_row` (rows addressed by
name, used on the CSV path): the date cell must be present and
non-whitespace; then the first of debit/credit/balance whose cell is
present, non-whitespace, and parses via `float` after comma removal to a
non-zero value (any value for balance) makes the row a transaction. -/
def is_transaction_row_series (row : Row) (col_map : ColMap) : Bool :=
  if row.isEmpty then false
  else
    let date_idx := cmGet col_map "date" 0
    match row[date_idx]? with
    | none => false
    | some c =>
      if c.isNone then false
      else if pyStrip (pyStr c) = "" then false
      else
        ["debit", "credit", "balance"].any (fun role =>
          match cmFind? col_map role with
          | some idx =>
            match row[idx]? with
            | some (some s) =>
              if pyStrip s = "" then false
              else
                match pyFloat? (removeCommas s) with
                | some v => pyNumNZ v || (role == "balance")
                | none => false
            | _ => false
          | none => false)

/-- The plain-list branch of `is_transaction_row` (rows addressed
positionally, used on the PDF path): the date cell must be truthy and
non-whitespace; then any populated debit/credit/balance cell makes the
row a transaction — no numeric parsing is performed on this branch. -/
def is_transaction_row_list (row : Row) (col_map : ColMap) : Bool :=
  if row.isEmpty then false
  else
    let date_idx := cmGet col_map "date" 0
    match row[date_idx]? with
    | none => false
    | some c =>
      if cellTruthy c = false then false
      else if pyStrip (pyStr c) = "" then false
      else
        ["debit", "credit", "balance"].any (rolePopulated row col_map)

/-- `is_continuation_row(row, col_map)`: empty date cell, populated
narration cell, and none of debit/credit/balance populated. -/
def is_continuation_row (row : Row) (col_map : ColMap) : Bool :=
  if row.isEmpty then false
  else
    let date_idx := cmGet col_map "date" 0
    let dateFilled :=
      match row[date_idx]? with
      | some c => cellPopulated c
      | none => false
    if dateFilled then false
    else
      let narration_idx := cmGet col_map "narration" 1
      let narrOk :=
        match row[narration_idx]? with
        | some c => cellPopulated c
        | none => false
      if narrOk = false then false
      else !(["debit", "credit", "balance"].any (rolePopulated row col_map))

/-- The `debit_has` / `credit_has` computation of `clean_debit_credit`:
`is_numeric_amount(v) and float(str(v).replace(',', '')) != 0`.
The second conjunct's `float` call sits outside any `try`, so a cell that
`is_numeric_amount` accepts (spaces removed) but plain comma-removal does
not parse raises `ValueError`, modelled as `.error`. -/
def amountFlag (c : Cell) : Except Unit Bool :=
  if is_numeric_amount c then
    match pyFloat? (removeCommas (pyStr c)) with
    | some v => .ok (pyNumNZ v)
    | none => .error ()
  else .ok false

/-- One row of the `clean_debit_credit` loop; `.error` models an
uncaught `IndexError`/`ValueError` escaping the loop. -/
def cleanRowDC (debit_idx credit_idx : Nat) (r : Row) : Except Unit Row :=
  match r[debit_idx]?, r[credit_idx]? with
  | some dv, some cv => do
    let debit_has ← amountFlag dv
    let credit_has ← amountFlag cv
    if debit_has && credit_has then
      match pyFloat? (removeCommas (pyStr dv)), pyFloat? (removeCommas (pyStr cv)) with
      | some dn, some cn =>
        if pyNumLt dn cn then pure (r.set debit_idx none) else pure (r.set credit_idx none)
      | _, _ => pure (r.set debit_idx none)
    else pure r
  | _, _ => .error ()

/-- `clean_debit_credit(df, col_map)` from `row_handler.py`: identity on
an empty table or when either the debit or the credit role is unmapped;
otherwise each row is reconciled by `cleanRowDC`. -/
def clean_debit_credit (df : List Row) (col_map : ColMap) : Except Unit (List Row) :=
  if df.isEmpty then .ok df
  else
    match cmFind? col_map "debit", cmFind? col_map "credit" with
    | some di, some ci => df.mapM (cleanRowDC di ci)
    | _, _ => .ok df

/-- `prev_narration` handling in `merge_continuation_rows`:
`pd.isna` becomes the empty string, then `str(...)`. -/
def prevNarrStr (c : Cell) : String :=
  match c with
  | none => ""
  | some s => s

/-- One iteration of the `merge_continuation_rows` loop, acting on the
current (mutated) table plus the `rows_to_drop` accumulator. -/
def mergeStep (narration_idx : Nat) (col_map : ColMap)
    (st : List Row × List Nat) (i : Nat) : List Row × List Nat :=
  let tbl := st.1
  let drops := st.2
  match tbl[i]? with
  | none => st
  | some row =>
    if is_continuation_row row col_map ∧ 0 < i then
      let text := pyStrip (pyStr (row.getD narration_idx none))
      if text = "" then st
      else
        match tbl[i - 1]? with
        | none => st
        | some prev =>
          let p := prevNarrStr (prev.getD narration_idx none)
          (tbl.set (i - 1) (prev.set narration_idx (some (p ++ " " ++ text))),
            drops ++ [i])
    else st

/-- `df.drop(rows_to_drop)` on a positionally indexed frame: keep the rows
whose position is not listed. -/
def dropIndices (tbl : List Row) (drops : List Nat) : List Row :=
  (List.range tbl.length).filterMap
    (fun j => if j ∈ drops then none else tbl[j]?)

/-- `merge_continuation_rows(df, col_map)` from `row_handler.py`: a single
forward pass appending each continuation row's narration to the row just
above it in the frame (mutating in place) and recording it for dropping. -/
def merge_continuation_rows (df : List Row) (col_map : ColMap) : List Row :=
  if df.isEmpty then df
  else
    let narration_idx := cmGet col_map "narration" 1
    let res := (List.range df.length).foldl (mergeStep narration_idx col_map) (df, [])
    dropIndices res.1 res.2

/-- `clean_value(val)` from `row_handler.py`: missing, empty, or
whitespace-only becomes `None`; anything else is trimmed. -/
def clean_value (c : Cell) : Cell :=
  match c with
  | none => none
  | some s => if s = "" ∨ pyStrip s = "" then none else some (pyStrip s)

/-! ## column_handler.py and config.py -/

/-- Occurrence of `pat` as a contiguous sublist of a character list
(Python's `pat in s` substring test). -/
def containsSub (pat : List Char) : List Char → Bool
  | [] => pat.isEmpty
  | c :: t => pat.isPrefixOf (c :: t) || containsSub pat t

/-- Python `pat in s` on strings. -/
def strContains (s pat : String) : Bool := containsSub pat.data s.data

/-- `normalize_text(text)`: lowercase then strip. -/
def normalize_text (s : String) : String := pyStrip (pyLower s)

/-- `COLUMN_PATTERNS` from `config.py`, in declaration order. -/
def COLUMN_PATTERNS : List (String × List String) :=
  [("date", ["date", "tran date", "value dt", "txn date", "transaction date", "value date"]),
   ("narration", ["narration", "particulars", "description", "details", "transaction details"]),
   ("reference", ["chq", "cheque", "ref", "chq no", "chq/ref", "reference", "chq./ref.no."]),
   ("debit", ["debit", "withdrawal", "dr", "withdrawal amt", "amount debited", "withdrawal amt."]),
   ("credit", ["credit", "deposit", "cr", "deposit amt", "amount credited", "deposit amt."]),
   ("balance", ["balance", "closing", "closing balance", "available balance"]),
   ("init", ["init", "br", "branch"]),
   ("value_date", ["value dt", "value date", "valuedt"])]

/-- `STANDARD_NAMES` from `config.py`. -/
def STANDARD_NAMES : List (String × String) :=
  [("date", "Date"), ("narration", "Narration"), ("reference", "Chq/Ref"),
   ("debit", "Debit"), ("credit", "Credit"), ("balance", "Balance"),
   ("init", "Init/Br"), ("value_date", "ValueDt")]

/-- `STANDARD_NAMES_CSV` from `config.py`. -/
def STANDARD_NAMES_CSV : List (String × String) :=
  [("date", "Date"), ("narration", "Narration"), ("reference", "Chq/Ref"),
   ("debit", "Withdrawal"), ("credit", "Deposit"), ("balance", "Balance"),
   ("init", "Init/Br"), ("value_date", "ValueDt")]

/-- String-valued dict lookup with default, `t.get(k, d)`. -/
def snGet (t : List (String × String)) (k : String) (d : String) : String :=
  (((t.find? (fun p => p.1 = k)).map (·.2))).getD d

/-- `detect_column_type(header)`: first role (declaration order) one of
whose keyword patterns occurs in the normalized header. -/
def detect_column_type (header : String) : Option String :=
  let n := normalize_text header
  (COLUMN_PATTERNS.find? (fun p => p.2.any (fun pat => strContains n pat))).map (·.1)

/-- Lookup in the `seen` counter dict of `make_headers_unique`. -/
def alookup (seen : List (String × Nat)) (k : String) : Option Nat :=
  (seen.find? (fun p => p.1 = k)).map (·.2)

/-- Update an existing key of the `seen` counter dict. -/
def aset (seen : List (String × Nat)) (k : String) (v : Nat) : List (String × Nat) :=
  seen.map (fun p => if p.1 = k then (k, v) else p)

/-- The loop of `make_headers_unique`, carrying the `seen` dict: a fresh
header is emitted as-is (counter 0); a repeat increments the counter and
emits `header_<counter>`. -/
def mhuGo (seen : List (String × Nat)) : List String → List String
  | [] => []
  | h :: t =>
    match alookup seen h with
    | some c => (h ++ "_" ++ natStr (c + 1)) :: mhuGo (aset seen h (c + 1)) t
    | none => h :: mhuGo ((h, 0) :: seen) t

/-- `make_headers_unique(headers)` from `column_handler.py`. -/
def make_headers_unique (headers : List String) : List String := mhuGo [] headers

/-- The per-header body of `normalize_headers`, before de-duplication:
detected roles are renamed to the standard label (CSV or PDF variant) and
recorded in `col_map` on first occurrence; unknown headers keep their
trimmed text. -/
def nhStep (is_csv : Bool) (st : List String × ColMap) (p : Nat × String) :
    List String × ColMap :=
  let standard := if is_csv then STANDARD_NAMES_CSV else STANDARD_NAMES
  match detect_column_type p.2 with
  | some ct =>
    let cm := if cmMem st.2 ct then st.2 else st.2 ++ [(ct, p.1)]
    (st.1 ++ [snGet standard ct p.2], cm)
  | none => (st.1 ++ [pyStrip p.2], st.2)

/-- The normalized (pre-de-duplication) header list and column map of
`normalize_headers`. -/
def nhRaw (headers : List String) (is_csv : Bool) : List String × ColMap :=
  headers.enum.foldl (nhStep is_csv) ([], [])

/-- `normalize_headers(headers, is_csv)` from `column_handler.py`. -/
def normalize_headers (headers : List String) (is_csv : Bool) : List String × ColMap :=
  let res := nhRaw headers is_csv
  (make_headers_unique res.1, res.2)

/-! ## csv_processor.py: line folding -/

/-- The per-data-line body of `parse_mixed_csv` (lines 35-43): a line
whose comma-split field count matches the header count is kept; a line
with more fields has fields `1 .. len-5` comma-joined into one narration
field and is kept only if the rebuilt row (`[field 0, narration, last 5
fields]`) matches the header count; anything else is dropped (`none`). -/
def foldDataLine (numHeaders : Nat) (line : String) : Option (List String) :=
  let parts := splitChar ',' line
  if parts.length = numHeaders then some parts
  else if numHeaders < parts.length then
    let l := parts.length
    let hi := min l (l - numHeaders + 2)
    let narration_parts := (parts.drop 1).take (hi - 1)
    let merged := [parts.headD ""] ++ [joinSep "," narration_parts] ++
      parts.drop (l - 5)
    if merged.length = numHeaders then some merged else none
  else none

/-! ## Chunk serialization (pdf_processor.py / csv_processor.py) -/

/-- Python `str(i)` for a possibly negative index. -/
def intStr (i : Int) : String :=
  if i < 0 then "-" ++ natStr i.natAbs else natStr i.toNat

/-- `format_metadata_text(metadata)`: one `key: value` line per entry. -/
def formatMetadataText (md : List (String × String)) : String :=
  joinSep "\n" (md.map (fun p => p.1 ++ ": " ++ p.2))

/-- `format_transaction_text(headers, rows)`: header line then one
space-joined line per row (`None` cells become empty strings). -/
def formatTransactionText (headers : List String) (rows : List Row) : String :=
  if headers.isEmpty ∨ rows.isEmpty then ""
  else
    joinSep "\n"
      (joinSep " " headers ::
        rows.map (fun r =>
          joinSep " " (r.map (fun c => match c with
            | none => ""
            | some s => s))))

/-- `create_fallback_chunk(metadata, headers, rows)`. -/
def createFallbackChunk (md : List (String × String)) (headers : List String)
    (rows : List Row) : String :=
  joinSep "\n"
    ((if md.isEmpty then [] else [formatMetadataText md]) ++
      (if headers.isEmpty ∨ rows.isEmpty then []
       else ["Statement of account", formatTransactionText headers rows]))

/-- The slice `combined_data[start:end]`. -/
def sliceRows (rows : List Row) (start endv : Nat) : List Row :=
  (rows.drop start).take (endv - start)

/-- The structured ("TOON format") chunk text built identically in
`process_pdf` and the non-fallback branch of `process_csv`. -/
def structuredChunkText (md : List (String × String)) (headers : List String)
    (rows_cleaned : List Row) (start endv : Nat) : String :=
  joinSep "\n"
    (("    metadata:" ::
        md.map (fun p => "      \"" ++ p.1 ++ "\": \"" ++ p.2 ++ ",,,,,,\"")) ++
      ["    headers[" ++ natStr headers.length ++ "]: " ++
          joinSep "," headers,
        "    rows[" ++ natStr rows_cleaned.length ++ "]:"] ++
      rows_cleaned.map (fun r =>
        "      - [" ++ natStr headers.length ++ ",]: " ++
          joinSep "," (r.map (fun c => "\"" ++ pyStr c ++ "\""))) ++
      ["    row_indices[2]: " ++ natStr start ++ "," ++ intStr ((endv : Int) - 1),
        "    num_transactions: " ++ natStr rows_cleaned.length])

/-- The `[start, end)` windows produced by the `process_pdf` chunk loop
(lines 345-371), fuel-bounded: `end = min(start+chunk_size, n)`; the next
start is `end - overlap` when `overlap > 0` and `end` otherwise; with
positive overlap the loop breaks once `end` reaches `n`. -/
def pdfWindows (n cs ov : Nat) : Nat → Nat → List (Nat × Nat)
  | 0, _ => []
  | fuel + 1, start =>
    if start < n then
      (start, min (start + cs) n) ::
        (if ov > 0 ∧ n ≤ min (start + cs) n then []
         else pdfWindows n cs ov fuel
           (if ov > 0 then min (start + cs) n - ov else min (start + cs) n))
    else []

/-- The data chunks of `process_pdf`'s normal mode: one structured chunk
per window, over cleaned row slices. -/
def pdfDataChunks (md : List (String × String)) (headers : List String)
    (rows : List Row) (cs ov : Nat) : List String :=
  (pdfWindows rows.length cs ov (rows.length + 1) 0).map (fun w =>
    structuredChunkText md headers
      ((sliceRows rows w.1 w.2).map (fun r => r.map clean_value)) w.1 w.2)

/-- The full chunk list of `process_pdf`'s normal mode: the metadata-only
first chunk followed by the data chunks. -/
def pdfChunks (md : List (String × String)) (headers : List String)
    (rows : List Row) (cs ov : Nat) : List String :=
  formatMetadataText md :: pdfDataChunks md headers rows cs ov

/-- A `{'metadata': ..., 'chunks': ..., 'fallback_used': ...}` result. -/
structure PResult where
  metadata : List (String × String)
  chunks : List String
  fallback_used : Bool
deriving Repr, DecidableEq

/-- The chunk windows of `process_csv` (both branches): `end =
min(start+chunk_size, n)`, next start always `end`; overlap is never
consulted. Fuel-bounded. -/
def csvWindows (n cs : Nat) : Nat → Nat → List (Nat × Nat)
  | 0, _ => []
  | fuel + 1, start =>
    if start < n then
      (start, min (start + cs) n) :: csvWindows n cs fuel (min (start + cs) n)
    else []

/-- Fallback-branch chunks of `process_csv` (lines 181-193): one plain
`create_fallback_chunk` per window. -/
def csvFallbackChunks (md : List (String × String)) (headers : List String)
    (rows : List Row) (cs : Nat) : List String :=
  (csvWindows rows.length cs (rows.length + 1) 0).map (fun w =>
    createFallbackChunk md headers
      ((sliceRows rows w.1 w.2).map (fun r => r.map clean_value)))

/-- Non-fallback-branch data chunks of `process_csv` (lines 200-224):
one structured chunk per window. -/
def csvDataChunks (md : List (String × String)) (headers : List String)
    (rows : List Row) (cs : Nat) : List String :=
  (csvWindows rows.length cs (rows.length + 1) 0).map (fun w =>
    structuredChunkText md headers
      ((sliceRows rows w.1 w.2).map (fun r => r.map clean_value)) w.1 w.2)

/-- `process_csv` from the point where a parsed table exists (lines
154-231): empty table → empty fallback result; otherwise normalize
headers, keep the rows passing `is_transaction_row` (Series branch); if
none pass, chunk all rows in fallback mode; otherwise emit the
metadata-only chunk followed by structured chunks over the valid rows.
`overlap` is accepted and ignored, as in the source. -/
def process_csv_core (metadata : List (String × String)) (headers : List String)
    (rows : List Row) (chunk_size overlap : Nat) : PResult :=
  if rows.isEmpty then ⟨metadata, [], true⟩
  else
    let nh := normalize_headers headers true
    let valid := rows.filter (fun r => is_transaction_row_series r nh.2)
    if valid.isEmpty then
      ⟨metadata, csvFallbackChunks metadata nh.1 rows chunk_size, true⟩
    else
      ⟨metadata,
        formatMetadataText metadata :: csvDataChunks metadata nh.1 valid chunk_size,
        false⟩

/-! ## Failure policy (chunker.py, pdf_processor.py, csv_processor.py)

The orchestration layer is embedded with `Except Unit` standing for a
raised Python exception. The bodies of the `try` blocks perform library
I/O (pdfplumber, pandas, file reads), so each body is abstracted as an
arbitrary outcome parameter: an `Except`-value saying whether the block
returned (and with what) or raised. The `try`/`except` skeleton itself is
translated from the source. -/

/-- `text_splitter_fallback` (pdf_processor.py lines 203-265): the body
either returns metadata and chunks, always flagged `fallback_used=True`
(the no-text early return is the `(∅, [])` outcome), or raises, and the
`except` arm returns the explicitly empty fallback result. -/
def textSplitterFallback (body : Except Unit (List (String × String) × List String)) :
    PResult :=
  match body with
  | .ok (md, chunks) => ⟨md, chunks, true⟩
  | .error _ => ⟨[], [], true⟩

/-- `process_pdf` (lines 267-380) at the failure-policy level: if the
structured `try` body returns a result, that is the answer; if it raises
anywhere, `text_splitter_fallback` is the answer. -/
def processPdfModel (structured : Except Unit PResult)
    (fallbackBody : Except Unit (List (String × String) × List String)) : PResult :=
  match structured with
  | .ok r => r
  | .error _ => textSplitterFallback fallbackBody

/-- The last-resort `except` ladder of `process_csv` (lines 233-263): the
inner `try` either returns a non-empty re-read converted to fallback
chunks, or finds the re-read empty (`none`), or raises; the two latter
cases fall through to the explicitly empty result. -/
def csvLastResort (body : Except Unit (Option (List (String × String) × List String))) :
    PResult :=
  match body with
  | .ok (some (md, chunks)) => ⟨md, chunks, true⟩
  | .ok none => ⟨[], [], true⟩
  | .error _ => ⟨[], [], true⟩

/-- `process_csv` at the failure-policy level: the main `try` body either
returns a result or raises into the last-resort ladder. -/
def processCsvModel (main : Except Unit PResult)
    (lastResort : Except Unit (Option (List (String × String) × List String))) :
    PResult :=
  match main with
  | .ok r => r
  | .error _ => csvLastResort lastResort

/-- The errors `UniversalBankStatementChunker.process` can raise. -/
inductive ProcessError where
  | missingFile
  | unsupportedFormat
deriving Repr, DecidableEq

/-- `UniversalBankStatementChunker.process` (chunker.py lines 17-31):
missing path raises `FileNotFoundError`; the lowercased extension
dispatches to the PDF or the CSV/Excel processor; anything else raises
`ValueError`. The processor bodies are the abstracted outcomes above. -/
def chunkerProcess (fileExists : Bool) (ext : String)
    (pdfStructured : Except Unit PResult)
    (pdfFallbackBody : Except Unit (List (String × String) × List String))
    (csvMain : Except Unit PResult)
    (csvLastResortBody : Except Unit (Option (List (String × String) × List String))) :
    Except ProcessError PResult :=
  if fileExists = false then .error .missingFile
  else
    let e := pyLower ext
    if e = ".pdf" then .ok (processPdfModel pdfStructured pdfFallbackBody)
    else if e = ".csv" ∨ e = ".xlsx" ∨ e = ".xls" then
      .ok (processCsvModel csvMain csvLastResortBody)
    else .error .unsupportedFormat

/-- The table-assembly tail of `process_pdf` (lines 301-375): of the
per-table frames left after cleaning, the empty ones are discarded; if
none survive the text-splitter fallback is returned, otherwise the
surviving frames are concatenated and chunked in normal mode with
`fallback_used=False`. (Column re-alignment of `standardized_dfs` is not
modelled; it preserves row counts, which is all the theorems about this
definition use.) -/
def pdfAssemble (md : List (String × String)) (headers : List String)
    (cleaned : List (List Row)) (cs ov : Nat)
    (fallbackBody : Except Unit (List (String × String) × List String)) : PResult :=
  let processed := cleaned.filter (fun df => !df.isEmpty)
  if processed.isEmpty then textSplitterFallback fallbackBody
  else ⟨md, pdfChunks md headers processed.flatten cs ov, false⟩

/-! ## Specification-side predicates

These definitions follow the wording of the specification (not the code)
and exist only to be compared against the code-derived definitions
above. -/

/-- Spec-worded: the cell of `role` (located through the column map) is
non-empty, i.e. present and not whitespace-only. -/
def specRoleNonEmpty (row : Row) (col_map : ColMap) (role : String) : Bool :=
  match cmFind? col_map role with
  | some idx =>
    match row[idx]? with
    | some (some s) => pyStrip s ≠ ""
    | _ => false
  | none => false

/-- Spec-worded: the cell of `role` parses, after stripping thousands
separators and whitespace, to a non-zero number. -/
def specRoleNonzeroAmount (row : Row) (col_map : ColMap) (role : String) : Bool :=
  match cmFind? col_map role with
  | some idx =>
    match row[idx]? with
    | some (some s) =>
      pyStrip s ≠ "" &&
        (match pyFloat? (removeChar ' ' (removeCommas s)) with
         | some v => pyNumNZ v
         | none => false)
    | _ => false
  | none => false

/-- The transaction-row test exactly as §4.4 of the specification words
it: false unless the date-role cell is non-empty; otherwise true iff the
debit or credit cell holds a non-zero parsed amount, or the balance cell
is non-empty regardless of value. -/
def specTransactionRow (row : Row) (col_map : ColMap) : Bool :=
  if specRoleNonEmpty row col_map "date" = false then false
  else
    specRoleNonzeroAmount row col_map "debit" ||
      specRoleNonzeroAmount row col_map "credit" ||
      specRoleNonEmpty row col_map "balance"

/-- The date-cell gate shared by both branches of `is_transaction_row`:
the date-role cell (default index 0) exists, is truthy, and is not
whitespace-only. -/
def dateCellOk (row : Row) (col_map : ColMap) : Bool :=
  match row[cmGet col_map "date" 0]? with
  | some c => cellPopulated c
  | none => false

/-- The per-role test of the `pd.Series` branch of `is_transaction_row`:
the mapped cell is present and non-whitespace and `float` (after comma
removal) yields a non-zero value, or any value for the balance role. -/
def seriesHit (row : Row) (col_map : ColMap) (role : String) : Bool :=
  match cmFind? col_map role with
  | some idx =>
    match row[idx]? with
    | some (some s) =>
      pyStrip s ≠ "" &&
        (match pyFloat? (removeCommas s) with
         | some v => pyNumNZ v || role == "balance"
         | none => false)
    | _ => false
  | none => false

/-- A sample transaction-classification column map
`{date: 0, narration: 1, debit: 2, credit: 3, balance: 4}`. -/
def sampleMap : ColMap :=
  [("date", 0), ("narration", 1), ("debit", 2), ("credit", 3), ("balance", 4)]

/-- The positional branch of `is_transaction_row` is the date gate plus
"some mapped debit/credit/balance cell is populated" — no numeric test. -/
theorem is_transaction_row_list_eq (row : Row) (col_map : ColMap) :
    is_transaction_row_list row col_map =
      (dateCellOk row col_map &&
        (rolePopulated row col_map "debit" || rolePopulated row col_map "credit" ||
          rolePopulated row col_map "balance")) := by
  rcases hrow : row with _ | ⟨c0, rest⟩
  · simp [is_transaction_row_list, dateCellOk, rolePopulated]
  · have hne : (row.isEmpty) = false := by subst hrow; rfl
    rw [← hrow] at *
    simp only [is_transaction_row_list, dateCellOk, hne, Bool.false_eq_true,
      if_false]
    cases hget : row[cmGet col_map "date" 0]? with
    | none => simp
    | some c =>
      cases hct : cellTruthy c with
      | false => simp [cellPopulated, hct]
      | true =>
        by_cases hs : pyStrip (pyStr c) = ""
        · simp [cellPopulated, hct, hs]
        · simp [cellPopulated, hct, hs, List.any_cons, List.any_nil,
            Bool.or_assoc]

/-- The labelled (Series) branch of `is_transaction_row` is the date gate
plus "some mapped debit/credit/balance cell is populated and parses,
commas removed, to a non-zero float (any float for balance)". -/
theorem is_transaction_row_series_eq (row : Row) (col_map : ColMap) :
    is_transaction_row_series row col_map =
      (dateCellOk row col_map &&
        (seriesHit row col_map "debit" || seriesHit row col_map "credit" ||
          seriesHit row col_map "balance")) := by
  have hlam : ∀ role : String,
      (match cmFind? col_map role with
        | some idx =>
          match row[idx]? with
          | some (some s) =>
            if pyStrip s = "" then false
            else
              match pyFloat? (removeCommas s) with
              | some v => pyNumNZ v || (role == "balance")
              | none => false
          | _ => false
        | none => false) = seriesHit row col_map role := by
    intro role
    unfold seriesHit
    cases cmFind? col_map role with
    | none => rfl
    | some idx =>
      cases hc : row[idx]? with
      | none => simp [hc]
      | some c =>
        cases c with
        | none => simp [hc]
        | some s =>
          simp only [hc]
          by_cases hs : pyStrip s = ""
          · simp [hs]
          · simp [hs]
  rcases hrow : row with _ | ⟨c0, rest⟩
  · simp [is_transaction_row_series, dateCellOk, seriesHit]
  · have hne : (row.isEmpty) = false := by subst hrow; rfl
    rw [← hrow] at *
    simp only [is_transaction_row_series, dateCellOk, hne, Bool.false_eq_true,
      if_false]
    cases hget : row[cmGet col_map "date" 0]? with
    | none => simp
    | some c =>
      cases c with
      | none => simp [cellPopulated, cellTruthy]
      | some s =>
        by_cases hs : pyStrip (pyStr (some s)) = ""
        · simp [cellPopulated, cellTruthy, pyStr] at hs ⊢
          simp [hs]
        · by_cases hempty : s = ""
          · subst hempty
            simp [pyStr, pyStrip, trimData] at hs
          · simp only [Option.isNone_some, Bool.false_eq_true, if_false, hs,
              if_false, List.any_cons, List.any_nil, Bool.or_assoc, hlam,
              cellPopulated, cellTruthy]
            simp [hempty, hs]

/-! ## Claim C1 -/

/-- C1, counterexample: on the plain-list row
`["01/01", "x", "0", "", ""]` (debit cell `"0"`, credit and balance
empty) the code returns `true` — the list branch never parses amounts —
while the specification's row test returns `false` because the debit
parses to zero and nothing else is non-empty. The claim's description is
therefore not valid for every row. -/
theorem C1_counterexample :
    is_transaction_row_list [some "01/01", some "x", some "0", none, none] sampleMap
        = true ∧
      specTransactionRow [some "01/01", some "x", some "0", none, none] sampleMap
        = false := by
  decide

/-- C1, amended: the date gate is as the claim says, but the two branches
then diverge. The positional (list) branch returns true iff some mapped
debit/credit/balance cell is populated, with no numeric check at all; the
labelled (Series) branch returns true iff some mapped debit/credit/balance
cell is populated and parses after comma removal (spaces are not
stripped) to a float that is non-zero or belongs to the balance role — so
an unparseable balance cell does not count on the Series branch. -/
theorem isTransactionRow_characterization (row : Row) (col_map : ColMap) :
    (is_transaction_row_list row col_map =
      (dateCellOk row col_map &&
        (rolePopulated row col_map "debit" || rolePopulated row col_map "credit" ||
          rolePopulated row col_map "balance"))) ∧
    (is_transaction_row_series row col_map =
      (dateCellOk row col_map &&
        (seriesHit row col_map "debit" || seriesHit row col_map "credit" ||
          seriesHit row col_map "balance"))) :=
  ⟨is_transaction_row_list_eq row col_map, is_transaction_row_series_eq row col_map⟩

/-! ## Claim C4 -/

/-- A role hit on the Series branch implies the same role is populated on
the list branch: the numeric test only strengthens the check. -/
theorem seriesHit_imp_rolePopulated (row : Row) (col_map : ColMap) (role : String) :
    seriesHit row col_map role = true → rolePopulated row col_map role = true := by
  unfold seriesHit rolePopulated
  cases cmFind? col_map role with
  | none => simp
  | some idx =>
    cases hc : row[idx]? with
    | none => simp [hc]
    | some c =>
      cases c with
      | none => simp [hc]
      | some s =>
        simp only [hc]
        intro h
        have h1 : pyStrip s ≠ "" := by
          intro he
          simp [he] at h
        have h2 : s ≠ "" := by
          intro he
          subst he
          exact h1 rfl
        simp [cellPopulated, cellTruthy, pyStr, h1, h2]

/-- C4, counterexample: on the row `["01/01", "x", "abc", "", ""]` the
positional branch of `is_transaction_row` answers `true` (the debit cell
is non-empty) while the labelled branch answers `false` (`float("abc")`
fails), so the two addressing modes do not behave identically. -/
theorem C4_counterexample :
    is_transaction_row_list [some "01/01", some "x", some "abc", none, none] sampleMap
        = true ∧
      is_transaction_row_series [some "01/01", some "x", some "abc", none, none]
          sampleMap = false := by
  decide

/-- C4, amended: the labelled branch implies the positional branch; the
two agree whenever every populated mapped debit/credit/balance cell also
passes the labelled branch's numeric test (parses, commas removed, to a
float that is non-zero or in the balance role); and they disagree on
exactly the rows that pass the date gate, have at least one populated
mapped debit/credit/balance cell, yet have no mapped cell passing that
numeric test — there the positional branch answers true and the labelled
branch false. -/
theorem isTransactionRow_paths_agree (row : Row) (col_map : ColMap) :
    (is_transaction_row_series row col_map = true →
      is_transaction_row_list row col_map = true) ∧
    ((∀ role ∈ (["debit", "credit", "balance"] : List String),
        rolePopulated row col_map role = true → seriesHit row col_map role = true) →
      is_transaction_row_list row col_map = is_transaction_row_series row col_map) ∧
    (is_transaction_row_list row col_map ≠ is_transaction_row_series row col_map ↔
      (dateCellOk row col_map = true ∧
        (rolePopulated row col_map "debit" = true ∨
          rolePopulated row col_map "credit" = true ∨
          rolePopulated row col_map "balance" = true) ∧
        seriesHit row col_map "debit" = false ∧
        seriesHit row col_map "credit" = false ∧
        seriesHit row col_map "balance" = false)) := by
  have e : ∀ role : String,
      (rolePopulated row col_map role = true → seriesHit row col_map role = true) →
      rolePopulated row col_map role = seriesHit row col_map role := by
    intro role h1
    cases hrp : rolePopulated row col_map role with
    | false =>
      cases hsh : seriesHit row col_map role with
      | false => rfl
      | true =>
        have := seriesHit_imp_rolePopulated row col_map role hsh
        rw [this] at hrp
        exact absurd hrp (by simp)
    | true => exact (h1 hrp).symm
  refine ⟨?_, ?_, ?_⟩
  · intro h
    rw [is_transaction_row_series_eq] at h
    rw [is_transaction_row_list_eq]
    simp only [Bool.and_eq_true, Bool.or_eq_true] at h ⊢
    refine ⟨h.1, ?_⟩
    rcases h.2 with (h' | h') | h'
    · exact Or.inl (Or.inl (seriesHit_imp_rolePopulated row col_map _ h'))
    · exact Or.inl (Or.inr (seriesHit_imp_rolePopulated row col_map _ h'))
    · exact Or.inr (seriesHit_imp_rolePopulated row col_map _ h')
  · intro H
    rw [is_transaction_row_list_eq, is_transaction_row_series_eq]
    rw [e "debit" (H _ (by simp)), e "credit" (H _ (by simp)),
      e "balance" (H _ (by simp))]
  · have m1 := seriesHit_imp_rolePopulated row col_map "debit"
    have m2 := seriesHit_imp_rolePopulated row col_map "credit"
    have m3 := seriesHit_imp_rolePopulated row col_map "balance"
    rw [is_transaction_row_list_eq, is_transaction_row_series_eq]
    cases hd : dateCellOk row col_map <;>
      cases hp1 : rolePopulated row col_map "debit" <;>
        cases hp2 : rolePopulated row col_map "credit" <;>
          cases hp3 : rolePopulated row col_map "balance" <;>
            cases hs1 : seriesHit row col_map "debit" <;>
              cases hs2 : seriesHit row col_map "credit" <;>
                cases hs3 : seriesHit row col_map "balance" <;>
                  simp_all

/-- C4 amended, witness: on `["01/01", "x", "100.00", "", ""]` every
populated amount cell parses to a non-zero float, and indeed the two
branches agree (both `true`); the Series-implies-list direction also
holds there; and on `["01/01", "x", "abc", "", ""]` the disagreement
characterization certifies that the branches differ. -/
theorem isTransactionRow_paths_agree_witness :
    (is_transaction_row_list [some "01/01", some "x", some "100.00", none, none]
        sampleMap =
      is_transaction_row_series [some "01/01", some "x", some "100.00", none, none]
        sampleMap) ∧
    is_transaction_row_list [some "01/01", some "x", some "100.00", none, none]
        sampleMap = true ∧
    is_transaction_row_list [some "01/01", some "x", some "abc", none, none]
        sampleMap ≠
      is_transaction_row_series [some "01/01", some "x", some "abc", none, none]
        sampleMap :=
  ⟨(isTransactionRow_paths_agree
      [some "01/01", some "x", some "100.00", none, none] sampleMap).2.1 (by decide),
    (isTransactionRow_paths_agree
      [some "01/01", some "x", some "100.00", none, none] sampleMap).1 (by decide),
    (isTransactionRow_paths_agree
      [some "01/01", some "x", some "abc", none, none] sampleMap).2.2.mpr
      (by refine ⟨by decide, Or.inl (by decide), by decide, by decide, by decide⟩)⟩

/-! ## Claim C2, counterexample -/

/-- C2, counterexample: on a chain of two continuation rows following one
transaction row, the second continuation's text (`"C"`) is appended to
the first continuation row — which is then dropped — so the surviving
transaction row ends with narration `"A B"`, not the `"A B C"` the
claimed accumulation onto the same original row would produce. -/
theorem C2_counterexample :
    merge_continuation_rows
        [[some "01/01", some "A", none, none, some "100"],
          [none, some "B", none, none, none],
          [none, some "C", none, none, none]] sampleMap =
      [[some "01/01", some "A B", none, none, some "100"]] ∧
    merge_continuation_rows
        [[some "01/01", some "A", none, none, some "100"],
          [none, some "B", none, none, none],
          [none, some "C", none, none, none]] sampleMap ≠
      [[some "01/01", some "A B C", none, none, some "100"]] := by
  decide

/-! ## Claim C9 -/

/-- C9: fallback-mode chunking is independent of the configured overlap —
the `process_csv` window advance never consults it, so two runs differing
only in `overlap` produce the same chunk list. -/
theorem process_csv_core_overlap_independent
    (md : List (String × String)) (headers : List String) (rows : List Row)
    (cs ov₁ ov₂ : Nat) :
    (process_csv_core md headers rows cs ov₁).fallback_used = true →
    (process_csv_core md headers rows cs ov₁).chunks =
      (process_csv_core md headers rows cs ov₂).chunks := by
  intro _
  rfl

/-- C9, witness: a concrete fallback-mode input (no row passes the
transaction test) chunked with overlaps 0 and 3 gives identical chunks. -/
theorem process_csv_core_overlap_independent_witness :
    (process_csv_core [] ["h1", "h2"] [[none, some "x"]] 5 0).fallback_used = true ∧
    (process_csv_core [] ["h1", "h2"] [[none, some "x"]] 5 0).chunks =
      (process_csv_core [] ["h1", "h2"] [[none, some "x"]] 5 3).chunks :=
  ⟨by decide,
    process_csv_core_overlap_independent [] ["h1", "h2"] [[none, some "x"]] 5 0 3
      (by decide)⟩

/-! ## Claim C5 -/

/-- Every window list starts (if at all) with the requested start. -/
theorem pdfWindows_head_start (n cs ov fuel start : Nat) :
    ∀ w ∈ (pdfWindows n cs ov fuel start).head?, w.1 = start := by
  cases fuel with
  | zero => simp [pdfWindows]
  | succ f =>
    simp only [pdfWindows]
    by_cases hst : start < n
    · rw [if_pos hst]
      intro w hw
      simp only [List.head?_cons, Option.mem_def, Option.some.injEq] at hw
      rw [← hw]
    · rw [if_neg hst]
      simp

/-- Every emitted window `(s, e)` satisfies `e = min (s + chunk_size) n`
and starts strictly inside the table. -/
theorem pdfWindows_mem (n cs ov : Nat) :
    ∀ (fuel start : Nat), ∀ w ∈ pdfWindows n cs ov fuel start,
      w.2 = min (w.1 + cs) n ∧ w.1 < n := by
  intro fuel
  induction fuel with
  | zero => intro start w hw; simp [pdfWindows] at hw
  | succ f ih =>
    intro start w hw
    simp only [pdfWindows] at hw
    by_cases hst : start < n
    · rw [if_pos hst] at hw
      rcases List.mem_cons.mp hw with h | h
      · subst h
        exact ⟨rfl, hst⟩
      · by_cases hbr : ov > 0 ∧ n ≤ min (start + cs) n
        · rw [if_pos hbr] at h
          simp at h
        · rw [if_neg hbr] at h
          exact ih _ _ h
    · rw [if_neg hst] at hw
      simp at hw

/-- Adjacent windows obey the advance rule: the next start is
`end − overlap` when `overlap > 0` and `end` otherwise. -/
theorem pdfWindows_chain (n cs ov : Nat) :
    ∀ fuel start,
      List.Chain' (fun w w' : Nat × Nat => w'.1 = if 0 < ov then w.2 - ov else w.2)
        (pdfWindows n cs ov fuel start) := by
  intro fuel
  induction fuel with
  | zero => intro start; simp [pdfWindows]
  | succ f ih =>
    intro start
    simp only [pdfWindows]
    by_cases hst : start < n
    · rw [if_pos hst]
      by_cases hbr : ov > 0 ∧ n ≤ min (start + cs) n
      · rw [if_pos hbr]
        simp
      · rw [if_neg hbr]
        refine List.chain'_cons'.mpr ⟨?_, ih _⟩
        intro w hw
        exact pdfWindows_head_start n cs ov f _ w hw
    · rw [if_neg hst]
      simp

/-- C5: normal-mode PDF chunking emits the metadata-only chunk first and
then one data chunk per window; with 5 rows, `chunk_size=2`, `overlap=0`
the inclusive row ranges are `[0,1] [2,3] [4,4]`; with 5 rows,
`chunk_size=3`, `overlap=1` they are `[0,2] [2,4]` and iteration stops;
in general every window `(s, e)` has `e = min (s + chunk_size) n` with
`s < n`, and consecutive windows advance by `end − overlap` when
`overlap > 0` and by `end` otherwise. -/
theorem pdf_chunk_shape :
    ((pdfWindows 5 2 0 6 0).map (fun w => (w.1, w.2 - 1)) =
        [(0, 1), (2, 3), (4, 4)]) ∧
    ((pdfWindows 5 3 1 6 0).map (fun w => (w.1, w.2 - 1)) = [(0, 2), (2, 4)]) ∧
    (∀ (md : List (String × String)) (headers : List String) (rows : List Row)
        (cs ov : Nat),
      (pdfChunks md headers rows cs ov).head? = some (formatMetadataText md) ∧
      (pdfChunks md headers rows cs ov).length =
        1 + (pdfWindows rows.length cs ov (rows.length + 1) 0).length) ∧
    (∀ n cs ov fuel start, ∀ w ∈ pdfWindows n cs ov fuel start,
      w.2 = min (w.1 + cs) n ∧ w.1 < n) ∧
    (∀ n cs ov fuel start,
      List.Chain' (fun w w' : Nat × Nat => w'.1 = if 0 < ov then w.2 - ov else w.2)
        (pdfWindows n cs ov fuel start)) := by
  refine ⟨by decide, by decide, ?_, ?_, ?_⟩
  · intro md headers rows cs ov
    constructor
    · rfl
    · simp [pdfChunks, pdfDataChunks, Nat.add_comm]
  · intro n cs ov fuel start
    exact pdfWindows_mem n cs ov fuel start
  · intro n cs ov fuel start
    exact pdfWindows_chain n cs ov fuel start

/-- C5, witness: the window `(2, 4)` of the 5-row, `chunk_size=2`,
`overlap=0` run indeed satisfies the window equation and starts inside
the table. -/
theorem pdf_chunk_shape_witness :
    ((2, 4) : Nat × Nat).2 = min ((2, 4).1 + 2) 5 ∧ ((2, 4) : Nat × Nat).1 < 5 :=
  pdf_chunk_shape.2.2.2.1 5 2 0 6 0 (2, 4) (by decide)

/-! ## Claim C6 -/

/-- C6: the dispatch-and-absorb failure policy. A missing file raises
`MissingFile`; an existing file with a supported extension (after
lowercasing) always yields a result, whatever the processor bodies do; an
existing file with any other extension raises `UnsupportedFormat`; and
when the structured body and the fallback body both raise, the returned
result is the explicitly empty one with `fallback_used = true`. -/
theorem chunkerProcess_policy
    (pdfS : Except Unit PResult)
    (pdfFB : Except Unit (List (String × String) × List String))
    (csvM : Except Unit PResult)
    (csvLR : Except Unit (Option (List (String × String) × List String)))
    (ext : String) :
    (chunkerProcess false ext pdfS pdfFB csvM csvLR = .error .missingFile) ∧
    ((pyLower ext = ".pdf" ∨ pyLower ext = ".csv" ∨ pyLower ext = ".xlsx" ∨
        pyLower ext = ".xls") →
      ∃ r : PResult, chunkerProcess true ext pdfS pdfFB csvM csvLR = .ok r) ∧
    ((pyLower ext ≠ ".pdf" ∧ pyLower ext ≠ ".csv" ∧ pyLower ext ≠ ".xlsx" ∧
        pyLower ext ≠ ".xls") →
      chunkerProcess true ext pdfS pdfFB csvM csvLR = .error .unsupportedFormat) ∧
    (processPdfModel (.error ()) (.error ()) = ⟨[], [], true⟩) ∧
    (processCsvModel (.error ()) (.error ()) = ⟨[], [], true⟩) := by
  refine ⟨rfl, ?_, ?_, rfl, rfl⟩
  · intro h
    rcases h with h | h | h | h
    · exact ⟨processPdfModel pdfS pdfFB, by unfold chunkerProcess; simp [h]⟩
    · exact ⟨processCsvModel csvM csvLR, by unfold chunkerProcess; simp [h]⟩
    · exact ⟨processCsvModel csvM csvLR, by unfold chunkerProcess; simp [h]⟩
    · exact ⟨processCsvModel csvM csvLR, by unfold chunkerProcess; simp [h]⟩
  · intro ⟨h1, h2, h3, h4⟩
    unfold chunkerProcess
    simp [h1, h2, h3, h4]

/-- C6, witness: an existing `.pdf` whose structured processing and
fallback re-read both raise still returns a result (the empty fallback
result) rather than propagating, while an existing `.txt` raises the
unsupported-format error. -/
theorem chunkerProcess_policy_witness :
    (∃ r : PResult,
      chunkerProcess true ".pdf" (.error ()) (.error ()) (.error ()) (.error ())
        = .ok r) ∧
    chunkerProcess true ".txt" (.error ()) (.error ()) (.error ()) (.error ())
        = .error .unsupportedFormat :=
  ⟨(chunkerProcess_policy (.error ()) (.error ()) (.error ()) (.error ())
      ".pdf").2.1 (Or.inl (by decide)),
    (chunkerProcess_policy (.error ()) (.error ()) (.error ()) (.error ())
      ".txt").2.2.1 ⟨by decide, by decide, by decide, by decide⟩⟩

/-! ## Claim C7 -/

/-- C7, counterexample: with 6 headers, a data line splitting into 8
fields is not folded to 6 fields — the rebuilt row keeps the hard-coded
last 5 fields, so its length is 7 ≠ 6 and the line is silently dropped,
contradicting the claim that every over-long line is folded to
header-length. -/
theorem C7_counterexample :
    foldDataLine 6 "a,b,c,d,e,f,g,h" = none ∧
      (splitChar ',' "a,b,c,d,e,f,g,h").length = 8 ∧ 6 < 8 := by
  decide

/-- C7, amended: a data line with exactly header-many fields is kept
as-is. A line with more fields is rebuilt as `[field 0, comma-join of
fields 1 .. len−6, last 5 fields]`; because the trailing slice is
hard-coded to 5 fields, the rebuilt row matches the header count — and
the line is kept, folded exactly as the claim describes with
header-length − 2 = 5 trailing fields — only when the header count is 7.
For any other header count an over-long line is silently dropped. -/
theorem foldDataLine_spec :
    (∀ (line : String) (n : Nat), (splitChar ',' line).length = n →
      foldDataLine n line = some (splitChar ',' line)) ∧
    (∀ line : String, 7 < (splitChar ',' line).length →
      foldDataLine 7 line =
        some ((splitChar ',' line).headD "" ::
          joinSep ","
            (((splitChar ',' line).drop 1).take ((splitChar ',' line).length - 6)) ::
          (splitChar ',' line).drop ((splitChar ',' line).length - 5)) ∧
      ((splitChar ',' line).headD "" ::
          joinSep ","
            (((splitChar ',' line).drop 1).take ((splitChar ',' line).length - 6)) ::
          (splitChar ',' line).drop ((splitChar ',' line).length - 5)).length = 7) ∧
    (∀ (line : String) (n : Nat), n ≠ 7 → n < (splitChar ',' line).length →
      foldDataLine n line = none) := by
  refine ⟨?_, ?_, ?_⟩
  · intro line n h
    unfold foldDataLine
    simp [h]
  · intro line h7
    have hlen5 : (List.drop ((splitChar ',' line).length - 5) (splitChar ',' line)).length
        = 5 := by
      rw [List.length_drop]
      omega
    constructor
    · unfold foldDataLine
      rw [if_neg (by omega), if_pos h7]
      have hhi : min (splitChar ',' line).length ((splitChar ',' line).length - 7 + 2)
          = (splitChar ',' line).length - 5 := by omega
      simp only []
      rw [hhi]
      have hm1 : (splitChar ',' line).length - 5 - 1
          = (splitChar ',' line).length - 6 := by omega
      rw [hm1]
      rw [if_pos]
      · simp
      · simp only [List.length_append, List.length_cons, List.length_nil, hlen5]
    · simp only [List.length_cons, hlen5]
  · intro line n hn h
    unfold foldDataLine
    rw [if_neg (by omega), if_pos h]
    rw [if_neg]
    simp only [List.length_append, List.length_cons, List.length_nil,
      List.length_drop]
    omega

/-- C7 amended, witness: with 7 headers a 9-field line is folded — fields
1–3 are comma-joined into the narration slot and the last 5 fields kept —
producing exactly 7 fields. -/
theorem foldDataLine_spec_witness :
    (foldDataLine 7 "01/01,pay,to,x,ref,100,,200,bal" =
        some ["01/01", "pay,to,x", "ref", "100", "", "200", "bal"] ∧
      (["01/01", "pay,to,x", "ref", "100", "", "200", "bal"] : List String).length
        = 7) ∧
    foldDataLine 3 "a,b,c" = some (splitChar ',' "a,b,c") ∧
    foldDataLine 2 "a,b,c" = none := by
  have h := (foldDataLine_spec.2.1 "01/01,pay,to,x,ref,100,,200,bal" (by decide))
  refine ⟨⟨by rw [h.1]; decide, h.2⟩, ?_, ?_⟩
  · exact foldDataLine_spec.1 "a,b,c" 3 (by decide)
  · exact foldDataLine_spec.2.2 "a,b,c" 2 (by decide) (by decide)

/-! ## Claim C10 -/

/-- With a non-empty table the PDF chunk loop emits at least one window. -/
theorem pdfWindows_pos (n cs ov fuel : Nat) (hn : 0 < n) :
    0 < (pdfWindows n cs ov (fuel + 1) 0).length := by
  simp [pdfWindows, hn]

/-- With a non-empty table the CSV chunk loop emits at least one window. -/
theorem csvWindows_pos (n cs fuel : Nat) (hn : 0 < n) :
    0 < (csvWindows n cs (fuel + 1) 0).length := by
  simp [csvWindows, hn]

/-- The text-splitter fallback always reports `fallback_used = true`. -/
theorem textSplitterFallback_fallback_used
    (b : Except Unit (List (String × String) × List String)) :
    (textSplitterFallback b).fallback_used = true := by
  cases b with
  | ok p => rfl
  | error e => rfl

/-- C10: whenever a result reports `fallback_used = false` — on the PDF
assembly tail or on the CSV path — its chunk list has at least two
entries: the metadata-only serialization first (the empty string when no
metadata was extracted), followed by at least one data chunk, because the
non-fallback branch is reached only with at least one surviving
transaction row. -/
theorem nonfallback_result_shape :
    (∀ (md : List (String × String)) (headers : List String)
        (cleaned : List (List Row)) (cs ov : Nat)
        (fb : Except Unit (List (String × String) × List String)),
      (pdfAssemble md headers cleaned cs ov fb).fallback_used = false →
      2 ≤ (pdfAssemble md headers cleaned cs ov fb).chunks.length ∧
      (pdfAssemble md headers cleaned cs ov fb).chunks.head? =
        some (formatMetadataText md)) ∧
    (∀ (md : List (String × String)) (headers : List String) (rows : List Row)
        (cs ov : Nat),
      (process_csv_core md headers rows cs ov).fallback_used = false →
      2 ≤ (process_csv_core md headers rows cs ov).chunks.length ∧
      (process_csv_core md headers rows cs ov).chunks.head? =
        some (formatMetadataText md)) ∧
    formatMetadataText [] = "" := by
  refine ⟨?_, ?_, rfl⟩
  · intro md headers cleaned cs ov fb
    unfold pdfAssemble
    by_cases hp : (cleaned.filter (fun df => !df.isEmpty)).isEmpty
    · rw [if_pos hp]
      intro hfb
      rw [textSplitterFallback_fallback_used fb] at hfb
      exact absurd hfb (by simp)
    · rw [if_neg hp]
      intro _
      have hflat : 0 < (cleaned.filter (fun df => !df.isEmpty)).flatten.length := by
        rcases hcons : cleaned.filter (fun df => !df.isEmpty) with _ | ⟨h, t⟩
        · rw [hcons] at hp
          simp at hp
        · have hmem : h ∈ cleaned.filter (fun df => !df.isEmpty) := by
            rw [hcons]
            exact List.mem_cons_self h t
          have hne : ¬ h.isEmpty := by
            have := List.of_mem_filter hmem
            simpa using this
          rw [hcons]
          simp only [List.flatten_cons, List.length_append]
          rcases h with _ | ⟨r, rs⟩
          · simp at hne
          · simp
      constructor
      · show 2 ≤ (pdfChunks md headers _ cs ov).length
        unfold pdfChunks pdfDataChunks
        simp only [List.length_cons, List.length_map]
        have := pdfWindows_pos
          (cleaned.filter (fun df => !df.isEmpty)).flatten.length cs ov
          (cleaned.filter (fun df => !df.isEmpty)).flatten.length hflat
        omega
      · rfl
  · intro md headers rows cs ov
    unfold process_csv_core
    by_cases hre : rows.isEmpty
    · simp only [hre, if_true]
      intro hfb
      exact absurd hfb (by simp)
    · simp only [hre, Bool.false_eq_true, if_false]
      by_cases hv : (rows.filter
          (fun r => is_transaction_row_series r (normalize_headers headers true).2)).isEmpty
      · simp only [hv, if_true]
        intro hfb
        exact absurd hfb (by simp)
      · simp only [hv, Bool.false_eq_true, if_false]
        intro _
        constructor
        · unfold csvDataChunks
          simp only [List.length_cons, List.length_map]
          have hpos : 0 < (rows.filter
              (fun r => is_transaction_row_series r (normalize_headers headers true).2)).length := by
            rcases hcons : rows.filter
                (fun r => is_transaction_row_series r (normalize_headers headers true).2) with
              _ | ⟨h, t⟩
            · rw [hcons] at hv
              simp at hv
            · simp [hcons]
          have := csvWindows_pos
            (rows.filter
              (fun r => is_transaction_row_series r (normalize_headers headers true).2)).length
            cs
            (rows.filter
              (fun r => is_transaction_row_series r (normalize_headers headers true).2)).length
            hpos
          omega
        · rfl

/-- C10, witness: a concrete CSV run that keeps one transaction row
returns `fallback_used = false` with two chunks led by the metadata
serialization. -/
theorem nonfallback_result_shape_witness :
    (2 ≤ (process_csv_core [("Account", "123")]
          ["Date", "Narration", "Withdrawal", "Deposit", "Balance"]
          [[some "01/01", some "Shop", some "100.00", none, some "900.00"]] 5 0).chunks.length ∧
      (process_csv_core [("Account", "123")]
          ["Date", "Narration", "Withdrawal", "Deposit", "Balance"]
          [[some "01/01", some "Shop", some "100.00", none, some "900.00"]] 5 0).chunks.head? =
        some (formatMetadataText [("Account", "123")])) ∧
    2 ≤ (pdfAssemble [("k", "v")] ["Date"] [[[some "01/01"]]] 5 0
          (.error ())).chunks.length :=
  ⟨nonfallback_result_shape.2.1 [("Account", "123")]
      ["Date", "Narration", "Withdrawal", "Deposit", "Balance"]
      [[some "01/01", some "Shop", some "100.00", none, some "900.00"]] 5 0 (by decide),
    (nonfallback_result_shape.1 [("k", "v")] ["Date"] [[[some "01/01"]]] 5 0
      (.error ()) (by decide)).1⟩

/-! ## Claim C3 -/

/-- The claim's per-cell condition, as the code determines it: the cell
passes `is_numeric_amount` and re-parses (commas removed) to a non-zero
value. -/
def specNZ (c : Cell) : Bool :=
  is_numeric_amount c &&
    (match pyFloat? (removeCommas (pyStr c)) with
     | some v => pyNumNZ v
     | none => false)

/-- A successful `amountFlag` computes exactly `specNZ`. -/
theorem amountFlag_ok (c : Cell) (b : Bool) :
    amountFlag c = .ok b → specNZ c = b := by
  unfold amountFlag specNZ
  by_cases hna : is_numeric_amount c = true
  · rw [if_pos hna, hna]
    cases hpf : pyFloat? (removeCommas (pyStr c)) with
    | none => intro h; exact absurd h (by simp)
    | some v =>
      intro h
      simp only [Except.ok.injEq] at h
      simp [h]
  · rw [if_neg hna]
    intro h
    simp only [Except.ok.injEq] at h
    simp only [Bool.not_eq_true] at hna
    simp [hna, ← h]

/-- A successful `amountFlag` on a `specNZ` cell means the comma-stripped
parse succeeded with a non-zero value. -/
theorem specNZ_parse (c : Cell) (h : specNZ c = true) :
    ∃ v, pyFloat? (removeCommas (pyStr c)) = some v ∧ pyNumNZ v = true := by
  unfold specNZ at h
  cases hpf : pyFloat? (removeCommas (pyStr c)) with
  | none => rw [hpf] at h; simp at h
  | some v =>
    rw [hpf] at h
    simp only [Bool.and_eq_true] at h
    exact ⟨v, rfl, h.2⟩

/-- Pointwise reading of a successful `Except`-monadic `mapM`. -/
theorem mapM_ok_get {α β : Type} (f : α → Except Unit β) :
    ∀ (l : List α) (out : List β), l.mapM f = .ok out →
      out.length = l.length ∧
        ∀ (j : Nat) (a : α), l[j]? = some a →
          ∃ b, out[j]? = some b ∧ f a = .ok b := by
  intro l
  induction l with
  | nil =>
    intro out h
    simp only [List.mapM_nil, pure] at h
    cases h
    simp
  | cons a t ih =>
    intro out h
    rw [List.mapM_cons] at h
    cases hfa : f a with
    | error e => rw [hfa] at h; exact absurd h (by simp [Bind.bind, Except.bind])
    | ok b =>
      rw [hfa] at h
      cases hmt : t.mapM f with
      | error e =>
        rw [hmt] at h
        exact absurd h (by simp [Bind.bind, Except.bind, pure])
      | ok bs =>
        rw [hmt] at h
        simp only [Bind.bind, Except.bind, pure, Except.pure, Except.ok.injEq] at h
        subst h
        obtain ⟨hlen, hpt⟩ := ih bs hmt
        refine ⟨by simp [hlen], ?_⟩
        intro j x hj
        cases j with
        | zero =>
          simp only [List.getElem?_cons_zero, Option.some.injEq] at hj
          subst hj
          exact ⟨b, by simp, hfa⟩
        | succ j =>
          simp only [List.getElem?_cons_succ] at hj ⊢
          exact hpt j x hj

/-- Row-level reading of a successful `cleanRowDC`: when both amount
cells are non-zero numbers the larger keeps its cell and the other is
nulled (`credit > debit` clears debit, otherwise credit); all other rows
pass through unchanged. -/
theorem cleanRowDC_ok (di ci : Nat) (r out : Row)
    (h : cleanRowDC di ci r = .ok out) :
    ∃ dv cv, r[di]? = some dv ∧ r[ci]? = some cv ∧
      ((specNZ dv = true ∧ specNZ cv = true) →
        ∃ dn cn, pyFloat? (removeCommas (pyStr dv)) = some dn ∧
          pyFloat? (removeCommas (pyStr cv)) = some cn ∧
          out = (if pyNumLt dn cn = true then r.set di none else r.set ci none)) ∧
      (¬(specNZ dv = true ∧ specNZ cv = true) → out = r) := by
  unfold cleanRowDC at h
  cases hd : r[di]? with
  | none => rw [hd] at h; exact absurd h (by simp)
  | some dv =>
    cases hc : r[ci]? with
    | none => rw [hd, hc] at h; exact absurd h (by simp)
    | some cv =>
      rw [hd, hc] at h
      dsimp only at h
      cases hfd : amountFlag dv with
      | error e =>
        rw [hfd] at h
        exact absurd h (by simp [Bind.bind, Except.bind])
      | ok b1 =>
        cases hfc : amountFlag cv with
        | error e =>
          rw [hfd, hfc] at h
          exact absurd h (by simp [Bind.bind, Except.bind])
        | ok b2 =>
          rw [hfd, hfc] at h
          simp only [Bind.bind, Except.bind] at h
          have hb1 := amountFlag_ok dv b1 hfd
          have hb2 := amountFlag_ok cv b2 hfc
          refine ⟨dv, cv, rfl, rfl, ?_, ?_⟩
          · intro ⟨hz1, hz2⟩
            rw [hb1] at hz1
            rw [hb2] at hz2
            subst hz1
            subst hz2
            simp only [Bool.and_self, if_true] at h
            obtain ⟨dn, hdn, _⟩ := specNZ_parse dv (hb1 ▸ rfl)
            obtain ⟨cn, hcn, _⟩ := specNZ_parse cv (hb2 ▸ rfl)
            rw [hdn, hcn] at h
            dsimp only at h
            refine ⟨dn, cn, hdn, hcn, ?_⟩
            by_cases hlt : pyNumLt dn cn = true
            · rw [if_pos hlt]
              rw [if_pos hlt] at h
              simp only [pure, Except.pure, Except.ok.injEq] at h
              exact h.symm
            · rw [if_neg hlt]
              rw [if_neg hlt] at h
              simp only [pure, Except.pure, Except.ok.injEq] at h
              exact h.symm
          · intro hnb
            have hff : (b1 && b2) = false := by
              rw [hb1, hb2] at hnb
              cases b1 <;> cases b2 <;> simp_all
            rw [hff] at h
            simp only [Bool.false_eq_true, if_false, pure, Except.pure,
              Except.ok.injEq] at h
            exact h.symm

/-- C3: `clean_debit_credit` is the identity on an empty table or when
either amount role is unmapped; otherwise, when it completes without
raising, each output row equals its input row unless both amount cells
hold non-zero numbers, in which case `credit > debit` clears the debit
cell and any other comparison clears the credit cell. -/
theorem clean_debit_credit_spec :
    (∀ col_map : ColMap, clean_debit_credit [] col_map = .ok []) ∧
    (∀ (df : List Row) (col_map : ColMap),
      (cmFind? col_map "debit" = none ∨ cmFind? col_map "credit" = none) →
      clean_debit_credit df col_map = .ok df) ∧
    (∀ (df out : List Row) (col_map : ColMap) (di ci : Nat),
      cmFind? col_map "debit" = some di →
      cmFind? col_map "credit" = some ci →
      clean_debit_credit df col_map = .ok out →
      out.length = df.length ∧
        ∀ (j : Nat) (r : Row), df[j]? = some r →
          ∃ r', out[j]? = some r' ∧
            ∃ dv cv, r[di]? = some dv ∧ r[ci]? = some cv ∧
              ((specNZ dv = true ∧ specNZ cv = true) →
                ∃ dn cn, pyFloat? (removeCommas (pyStr dv)) = some dn ∧
                  pyFloat? (removeCommas (pyStr cv)) = some cn ∧
                  r' = (if pyNumLt dn cn = true then r.set di none
                        else r.set ci none)) ∧
              (¬(specNZ dv = true ∧ specNZ cv = true) → r' = r)) := by
  refine ⟨fun _ => rfl, ?_, ?_⟩
  · intro df col_map h
    unfold clean_debit_credit
    by_cases hdf : df.isEmpty
    · rw [if_pos hdf]
    · rw [if_neg hdf]
      rcases h with h | h
      · rw [h]
      · rw [h]
        cases cmFind? col_map "debit" <;> rfl
  · intro df out col_map di ci hdi hci hcc
    unfold clean_debit_credit at hcc
    by_cases hdf : df.isEmpty
    · rw [if_pos hdf] at hcc
      have hdfe : df = [] := by simpa using hdf
      subst hdfe
      cases hcc
      exact ⟨rfl, by intro j r hj; simp at hj⟩
    · rw [if_neg hdf, hdi, hci] at hcc
      obtain ⟨hlen, hpt⟩ := mapM_ok_get (cleanRowDC di ci) df out hcc
      refine ⟨hlen, ?_⟩
      intro j r hj
      obtain ⟨r', hr', hfr⟩ := hpt j r hj
      exact ⟨r', hr', cleanRowDC_ok di ci r r' hfr⟩

/-- C3, witness: debit `"500.00"` against credit `"450.00"` completes
without raising, keeps the debit and clears the credit cell, and the
reconciled table keeps its length. -/
theorem clean_debit_credit_spec_witness :
    clean_debit_credit [[some "500.00", some "450.00"]]
        [("debit", 0), ("credit", 1)] = .ok [[some "500.00", none]] ∧
      ([[some "500.00", none]] : List Row).length =
        ([[some "500.00", some "450.00"]] : List Row).length :=
  ⟨by rfl,
    (clean_debit_credit_spec.2.2 [[some "500.00", some "450.00"]]
      [[some "500.00", none]] [("debit", 0), ("credit", 1)] 0 1 (by decide)
      (by decide) (by rfl)).1⟩

/-! ## Claim C2, amended: a functional reading of `merge_continuation_rows` -/

/-- Row `i` of the original frame is classified as a continuation row. -/
def contAt (df : List Row) (col_map : ColMap) (i : Nat) : Bool :=
  match df[i]? with
  | some r => is_continuation_row r col_map
  | none => false

/-- The stripped narration text of row `i` of the original frame. -/
def contText (df : List Row) (narration_idx i : Nat) : String :=
  match df[i]? with
  | some r => pyStrip (pyStr (r.getD narration_idx none))
  | none => ""

/-- Append continuation text to a row's narration cell, as the loop body
writes it: `str(prev) + " " + text` with `NaN` read as `""`. -/
def appendNarr (narration_idx : Nat) (t : String) (r : Row) : Row :=
  r.set narration_idx (some (prevNarrStr (r.getD narration_idx none) ++ " " ++ t))

/-- Row `j` after the steps `0 .. k-1` of the merge loop have run: its
narration has absorbed row `j+1`'s text iff step `j+1 < k` found row
`j+1` to be a continuation row with non-empty text. -/
def updRow (df : List Row) (col_map : ColMap) (narration_idx k j : Nat) : Row :=
  if j + 1 < k ∧ contAt df col_map (j + 1) = true ∧
      contText df narration_idx (j + 1) ≠ "" then
    appendNarr narration_idx (contText df narration_idx (j + 1)) (df.getD j [])
  else df.getD j []

/-- The table state after the steps `0 .. k-1` of the merge loop. -/
def stateTbl (df : List Row) (col_map : ColMap) (narration_idx k : Nat) : List Row :=
  (List.range df.length).map (updRow df col_map narration_idx k)

/-- The `rows_to_drop` accumulator after the steps `0 .. k-1`. -/
def dropsSpec (df : List Row) (col_map : ColMap) (narration_idx k : Nat) : List Nat :=
  (List.range k).filter (fun i =>
    decide (0 < i) && contAt df col_map i && decide (contText df narration_idx i ≠ ""))

/-- The functional specification of `merge_continuation_rows`: keep every
row that is not a dropped continuation row (position 0 is never dropped),
with row `j`'s narration extended by row `j+1`'s text exactly when row
`j+1` is a continuation row with non-empty text — even when row `j` is
itself dropped. -/
def mergeSpec (df : List Row) (col_map : ColMap) : List Row :=
  let narration_idx := cmGet col_map "narration" 1
  (List.range df.length).filterMap (fun j =>
    if 0 < j ∧ contAt df col_map j = true ∧
        contText df narration_idx j ≠ "" then none
    else some (updRow df col_map narration_idx df.length j))

theorem stateTbl_length (df : List Row) (col_map : ColMap) (narration_idx k : Nat) :
    (stateTbl df col_map narration_idx k).length = df.length := by
  simp [stateTbl]

theorem stateTbl_getElem? (df : List Row) (col_map : ColMap)
    (narration_idx k j : Nat) :
    (stateTbl df col_map narration_idx k)[j]? =
      if j < df.length then some (updRow df col_map narration_idx k j) else none := by
  simp only [stateTbl, List.getElem?_map, List.getElem?_range]
  by_cases hj : j < df.length
  · simp [hj]
  · simp [hj]
    omega

/-- Steps beyond `j + 1` do not change row `j` retroactively unless the
step is exactly `j + 1` with a droppable continuation row. -/
theorem updRow_stable (df : List Row) (col_map : ColMap) (narration_idx k j : Nat)
    (h : j + 1 ≠ k ∨ ¬(contAt df col_map k = true ∧
      contText df narration_idx k ≠ "")) :
    updRow df col_map narration_idx (k + 1) j = updRow df col_map narration_idx k j := by
  unfold updRow
  by_cases hc : j + 1 < k ∧ contAt df col_map (j + 1) = true ∧
      contText df narration_idx (j + 1) ≠ ""
  · rw [if_pos hc, if_pos ⟨by omega, hc.2⟩]
  · rw [if_neg hc]
    by_cases hc' : j + 1 < k + 1 ∧ contAt df col_map (j + 1) = true ∧
        contText df narration_idx (j + 1) ≠ ""
    · exfalso
      have hjk : j + 1 = k := by
        rcases Nat.lt_succ_iff_lt_or_eq.mp hc'.1 with h' | h'
        · exact absurd ⟨h', hc'.2⟩ hc
        · exact h'
      rcases h with h | h
      · exact h hjk
      · rw [hjk] at hc'
        exact h hc'.2
    · rw [if_neg hc']

/-- One step of the loop, started from the state after `k` steps,
produces the state after `k + 1` steps. -/
theorem mergeStep_state (df : List Row) (col_map : ColMap) (narration_idx k : Nat) :
    mergeStep narration_idx col_map
        (stateTbl df col_map narration_idx k, dropsSpec df col_map narration_idx k) k =
      (stateTbl df col_map narration_idx (k + 1),
        dropsSpec df col_map narration_idx (k + 1)) := by
  have hdrops : dropsSpec df col_map narration_idx (k + 1) =
      dropsSpec df col_map narration_idx k ++
        (if 0 < k ∧ contAt df col_map k = true ∧
            contText df narration_idx k ≠ "" then [k] else []) := by
    unfold dropsSpec
    rw [List.range_succ, List.filter_append]
    congr 1
    by_cases hc : 0 < k ∧ contAt df col_map k = true ∧
        contText df narration_idx k ≠ ""
    · rw [if_pos hc]
      simp only [List.filter_cons, List.filter_nil]
      rw [if_pos (by simp [hc.1, hc.2.1, hc.2.2])]
    · rw [if_neg hc]
      simp only [List.filter_cons, List.filter_nil]
      rw [if_neg]
      intro hb
      simp only [Bool.and_eq_true, decide_eq_true_eq] at hb
      exact hc ⟨hb.1.1, hb.1.2, hb.2⟩
  unfold mergeStep
  dsimp only
  by_cases hk : k < df.length
  · rw [stateTbl_getElem?, if_pos hk]
    dsimp only
    obtain ⟨row, hrow⟩ : ∃ r, df[k]? = some r := ⟨df[k], (List.getElem?_eq_getElem hk)⟩
    have hgetD : df.getD k [] = row := by
      rw [List.getD_eq_getElem?_getD, hrow]
      rfl
    have hupd : updRow df col_map narration_idx k k = row := by
      unfold updRow
      rw [if_neg (by omega)]
      exact hgetD
    rw [hupd]
    have hcont : contAt df col_map k = is_continuation_row row col_map := by
      unfold contAt
      rw [hrow]
    have htext : contText df narration_idx k =
        pyStrip (pyStr (row.getD narration_idx none)) := by
      unfold contText
      rw [hrow]
    by_cases hc : is_continuation_row row col_map = true ∧ 0 < k
    · rw [if_pos hc]
      by_cases ht : pyStrip (pyStr (row.getD narration_idx none)) = ""
      · rw [if_pos ht]
        have hnd : ¬(contAt df col_map k = true ∧
            contText df narration_idx k ≠ "") := by
          rw [hcont, htext]
          intro hx
          exact hx.2 ht
        rw [hdrops, if_neg (fun hx => hnd ⟨hx.2.1, hx.2.2⟩), List.append_nil]
        have : stateTbl df col_map narration_idx (k + 1) =
            stateTbl df col_map narration_idx k := by
          unfold stateTbl
          apply List.map_congr_left
          intro j _
          exact updRow_stable df col_map narration_idx k j (Or.inr hnd)
        rw [this]
      · rw [if_neg ht]
        have hk1 : k - 1 < df.length := by omega
        rw [stateTbl_getElem?, if_pos hk1]
        have hprev : updRow df col_map narration_idx k (k - 1) = df.getD (k - 1) [] := by
          unfold updRow
          rw [if_neg (by omega)]
        rw [hprev]
        dsimp only
        have hcd : contAt df col_map k = true ∧ contText df narration_idx k ≠ "" := by
          rw [hcont, htext]
          exact ⟨hc.1, ht⟩
        simp only [Prod.mk.injEq]
        constructor
        · apply List.ext_getElem?
          intro j
          rw [List.getElem?_set]
          rw [stateTbl_length]
          rw [stateTbl_getElem?, stateTbl_getElem?]
          by_cases hjk : k - 1 = j
          · subst hjk
            rw [if_pos rfl, if_pos hk1, if_pos hk1]
            congr 1
            unfold updRow
            rw [if_pos ⟨by omega, by rw [show k - 1 + 1 = k by omega]; exact hcd⟩]
            rw [show k - 1 + 1 = k by omega, htext]
            rfl
          · rw [if_neg hjk]
            by_cases hj : j < df.length
            · rw [if_pos hj, if_pos hj]
              congr 1
              exact (updRow_stable df col_map narration_idx k j
                (Or.inl (by omega))).symm
            · rw [if_neg hj, if_neg hj]
        · rw [hdrops, if_pos ⟨hc.2, hcd⟩]
    · rw [if_neg hc]
      have hnd : ¬(0 < k ∧ contAt df col_map k = true ∧
          contText df narration_idx k ≠ "") := by
        intro hx
        rw [hcont] at hx
        exact hc ⟨hx.2.1, hx.1⟩
      rw [hdrops, if_neg hnd, List.append_nil]
      have : stateTbl df col_map narration_idx (k + 1) =
          stateTbl df col_map narration_idx k := by
        unfold stateTbl
        apply List.map_congr_left
        intro j _
        apply updRow_stable df col_map narration_idx k j
        by_cases hjk : j + 1 = k
        · right
          intro hx
          rw [hcont] at hx
          rcases Nat.eq_zero_or_pos k with hk0 | hk0
          · omega
          · exact hc ⟨hx.1, hk0⟩
        · exact Or.inl hjk
      rw [this]
  · rw [stateTbl_getElem?, if_neg hk]
    dsimp only
    have hca : contAt df col_map k = false := by
      unfold contAt
      rw [List.getElem?_eq_none (by omega)]
    rw [hdrops, if_neg (by rw [hca]; rintro ⟨-, h, -⟩; exact absurd h (by simp)),
      List.append_nil]
    have : stateTbl df col_map narration_idx (k + 1) =
        stateTbl df col_map narration_idx k := by
      unfold stateTbl
      apply List.map_congr_left
      intro j _
      apply updRow_stable df col_map narration_idx k j
      right
      rw [hca]
      rintro ⟨h, -⟩
      exact absurd h (by simp)
    rw [this]

/-- The whole loop, as a fold over `range k`, lands on the state and
drop-list after `k` steps. -/
theorem mergeFold (df : List Row) (col_map : ColMap) (narration_idx : Nat) :
    ∀ k, (List.range k).foldl (mergeStep narration_idx col_map) (df, []) =
      (stateTbl df col_map narration_idx k, dropsSpec df col_map narration_idx k) := by
  intro k
  induction k with
  | zero =>
    simp only [List.range_zero, List.foldl_nil, dropsSpec, List.filter_nil,
      Prod.mk.injEq]
    constructor
    · apply List.ext_getElem?
      intro j
      rw [stateTbl_getElem?]
      by_cases hj : j < df.length
      · rw [if_pos hj]
        unfold updRow
        rw [if_neg (by omega), List.getD_eq_getElem?_getD,
          List.getElem?_eq_getElem hj]
        rfl
      · rw [if_neg hj, List.getElem?_eq_none (by omega)]
    · trivial
  | succ k ih =>
    rw [List.range_succ, List.foldl_append, ih, List.foldl_cons, List.foldl_nil,
      mergeStep_state]

/-- C2, amended: `merge_continuation_rows` equals its functional reading
`mergeSpec` — each continuation row's text lands on the row physically
above it (which may itself be a dropped continuation row), and the
continuation rows after position 0 are dropped — and the claim's own
two-row example produces the single row with narration
`"Payment to X for invoice 123"`. -/
theorem merge_continuation_rows_spec :
    (∀ (df : List Row) (col_map : ColMap),
      merge_continuation_rows df col_map = mergeSpec df col_map) ∧
    merge_continuation_rows
        [[some "01/01", some "Payment to X", none, none, some "100"],
          [none, some "for invoice 123", none, none, none]] sampleMap =
      [[some "01/01", some "Payment to X for invoice 123", none, none,
        some "100"]] := by
  refine ⟨?_, by decide⟩
  intro df col_map
  unfold merge_continuation_rows
  by_cases hdf : df.isEmpty
  · rw [if_pos hdf]
    have hdfe : df = [] := by simpa using hdf
    subst hdfe
    simp [mergeSpec]
  · rw [if_neg hdf]
    dsimp only
    rw [mergeFold df col_map (cmGet col_map "narration" 1) df.length]
    dsimp only
    unfold dropIndices mergeSpec
    rw [stateTbl_length]
    dsimp only
    apply List.filterMap_congr
    intro j hj
    have hjn : j < df.length := List.mem_range.mp hj
    have hmem : j ∈ dropsSpec df col_map (cmGet col_map "narration" 1) df.length ↔
        (0 < j ∧ contAt df col_map j = true ∧
          contText df (cmGet col_map "narration" 1) j ≠ "") := by
      unfold dropsSpec
      simp [List.mem_filter, List.mem_range, hjn, and_assoc]
    by_cases hc : 0 < j ∧ contAt df col_map j = true ∧
        contText df (cmGet col_map "narration" 1) j ≠ ""
    · rw [if_pos (hmem.mpr hc), if_pos hc]
    · rw [if_neg (fun hx => hc (hmem.mp hx)), if_neg hc, stateTbl_getElem?,
        if_pos hjn]

/-! ## Claim C8 -/

theorem digitChar_ne_underscore (d : Nat) : digitChar d ≠ '_' := by
  unfold digitChar
  split <;> decide

theorem natDigitsGo_ne_underscore :
    ∀ (fuel n : Nat), ∀ c ∈ natDigitsGo fuel n, c ≠ '_' := by
  intro fuel
  induction fuel with
  | zero => intro n c hc; simp [natDigitsGo] at hc
  | succ f ih =>
    intro n c hc
    simp only [natDigitsGo] at hc
    by_cases hn : n < 10
    · rw [if_pos hn] at hc
      simp only [List.mem_singleton] at hc
      subst hc
      exact digitChar_ne_underscore n
    · rw [if_neg hn] at hc
      rcases List.mem_append.mp hc with h | h
      · exact ih _ c h
      · simp only [List.mem_singleton] at h
        subst h
        exact digitChar_ne_underscore (n % 10)

theorem natDigits_ne_underscore (n : Nat) : ∀ c ∈ natDigits n, c ≠ '_' :=
  natDigitsGo_ne_underscore (n + 1) n

theorem digitChar_toNat (d : Nat) (h : d < 10) : (digitChar d).toNat = 48 + d := by
  interval_cases d <;> rfl

theorem digitsVal_append_singleton (cs : List Char) (c : Char) :
    digitsVal (cs ++ [c]) = digitsVal cs * 10 + (c.toNat - 48) := by
  simp [digitsVal, List.foldl_append]

theorem digitsVal_natDigitsGo :
    ∀ (fuel n : Nat), n < fuel → digitsVal (natDigitsGo fuel n) = n := by
  intro fuel
  induction fuel with
  | zero => intro n hn; omega
  | succ f ih =>
    intro n hn
    simp only [natDigitsGo]
    by_cases h10 : n < 10
    · rw [if_pos h10]
      simp only [digitsVal, List.foldl_cons, List.foldl_nil]
      rw [digitChar_toNat n h10]
      omega
    · rw [if_neg h10, digitsVal_append_singleton, ih (n / 10) (by omega),
        digitChar_toNat (n % 10) (by omega)]
      omega

theorem digitsVal_natDigits (n : Nat) : digitsVal (natDigits n) = n :=
  digitsVal_natDigitsGo (n + 1) n (by omega)

theorem natDigits_inj {a b : Nat} (h : natDigits a = natDigits b) : a = b := by
  rw [← digitsVal_natDigits a, h, digitsVal_natDigits]

theorem natDigits_ne_nil (n : Nat) : natDigits n ≠ [] := by
  unfold natDigits natDigitsGo
  by_cases h : n < 10
  · simp [h]
  · simp [h]

/-- Splitting at a separator character that occurs in neither remainder
is unambiguous (front-anchored form). -/
theorem sep_split_front :
    ∀ (x p y q : List Char), (∀ c ∈ x, c ≠ '_') → (∀ c ∈ y, c ≠ '_') →
      x ++ '_' :: p = y ++ '_' :: q → x = y ∧ p = q := by
  intro x
  induction x with
  | nil =>
    intro p y q _ hy h
    cases y with
    | nil => simpa using h
    | cons d y' =>
      simp only [List.nil_append, List.cons_append, List.cons.injEq] at h
      exact absurd h.1.symm (hy d (List.mem_cons_self d y'))
  | cons c x' ih =>
    intro p y q hx hy h
    cases y with
    | nil =>
      simp only [List.cons_append, List.nil_append, List.cons.injEq] at h
      exact absurd h.1 (hx c (List.mem_cons_self c x'))
    | cons d y' =>
      simp only [List.cons_append, List.cons.injEq] at h
      obtain ⟨h1, h2⟩ := ih p y' q (fun e he => hx e (List.mem_cons_of_mem c he))
        (fun e he => hy e (List.mem_cons_of_mem d he)) h.2
      exact ⟨by rw [h.1, h1], h2⟩

/-- Splitting at the last `'_'` (both suffixes underscore-free) is
unambiguous. -/
theorem sep_split_last (a b u v : List Char)
    (hu : ∀ c ∈ u, c ≠ '_') (hv : ∀ c ∈ v, c ≠ '_')
    (h : a ++ '_' :: u = b ++ '_' :: v) : a = b ∧ u = v := by
  have h' : u.reverse ++ '_' :: a.reverse = v.reverse ++ '_' :: b.reverse := by
    have hr := congrArg List.reverse h
    simpa [List.reverse_append] using hr
  obtain ⟨h1, h2⟩ := sep_split_front u.reverse a.reverse v.reverse b.reverse
    (fun c hc => hu c (List.mem_reverse.mp hc))
    (fun c hc => hv c (List.mem_reverse.mp hc)) h'
  exact ⟨List.reverse_injective h2, List.reverse_injective h1⟩

theorem sfx_data (h : String) (c : Nat) :
    (h ++ "_" ++ natStr c).data = h.data ++ '_' :: natDigits c := by
  rw [String.data_append, String.data_append]
  simp [natStr]

/-- The suffixed header names are injective in both components. -/
theorem sfx_inj (h h' : String) (c c' : Nat)
    (heq : h ++ "_" ++ natStr c = h' ++ "_" ++ natStr c') : h = h' ∧ c = c' := by
  have hd := congrArg String.data heq
  rw [sfx_data, sfx_data] at hd
  obtain ⟨h1, h2⟩ := sep_split_last h.data h'.data (natDigits c) (natDigits c')
    (natDigits_ne_underscore c) (natDigits_ne_underscore c') hd
  exact ⟨String.ext h1, natDigits_inj h2⟩

/-- A string strictly shorter than `b ++ "_" ++ <digits>` cannot equal
it; in particular short headers are never of suffixed shape. -/
theorem ne_sfx_of_short (a b : String) (hlen : a.data.length < b.data.length + 2) :
    ∀ k : Nat, a ≠ b ++ "_" ++ natStr (k + 1) := by
  intro k heq
  have hd := congrArg (fun s : String => s.data.length) heq
  simp only [sfx_data, List.length_append, List.length_cons] at hd
  have h1 : 1 ≤ (natDigits (k + 1)).length :=
    List.length_pos.mpr (natDigits_ne_nil (k + 1))
  omega

/-- The emitted name for a header whose key has already been seen
`count` times. -/
def specName (p : List String) (h : String) : String :=
  if p.count h = 0 then h else h ++ "_" ++ natStr (p.count h)

/-- `make_headers_unique`, re-expressed statelessly: each header's
emitted name depends only on how often it occurred before. -/
def specOut (p : List String) : List String → List String
  | [] => []
  | h :: t => specName p h :: specOut (p ++ [h]) t

/-- No later emission collides with the name of a header already seen
strictly more often than `c`. -/
theorem specOut_notMem :
    ∀ (t q : List String) (b : String) (c : Nat),
      c < q.count b →
      (∀ h ∈ t, ∀ k : Nat, b ≠ h ++ "_" ++ natStr (k + 1)) →
      (∀ h ∈ t, ∀ k : Nat, h ≠ b ++ "_" ++ natStr (k + 1)) →
      (if c = 0 then b else b ++ "_" ++ natStr c) ∉ specOut q t := by
  intro t
  induction t with
  | nil => intro q b c _ _ _; simp [specOut]
  | cons h t' ih =>
    intro q b c hcnt hbt hht
    simp only [specOut, List.mem_cons, not_or]
    constructor
    · intro heq
      unfold specName at heq
      by_cases hc0 : c = 0
      · rw [if_pos hc0] at heq
        by_cases hk0 : q.count h = 0
        · rw [if_pos hk0] at heq
          subst heq
          omega
        · rw [if_neg hk0] at heq
          exact hbt h (List.mem_cons_self h t') (q.count h - 1)
            (by rw [Nat.sub_add_cancel (by omega)]; exact heq)
      · rw [if_neg hc0] at heq
        by_cases hk0 : q.count h = 0
        · rw [if_pos hk0] at heq
          exact hht h (List.mem_cons_self h t') (c - 1)
            (by rw [Nat.sub_add_cancel (by omega)]; exact heq.symm)
        · rw [if_neg hk0] at heq
          obtain ⟨hb, hc⟩ := sfx_inj b h c (q.count h) heq
          subst hb
          omega
    · exact ih (q ++ [h]) b c (by rw [List.count_append]; omega)
        (fun g hg k => hbt g (List.mem_cons_of_mem h hg) k)
        (fun g hg k => hht g (List.mem_cons_of_mem h hg) k)

/-- Under suffix-freedom of the inputs, the stateless renaming has
pairwise-distinct output. -/
theorem specOut_nodup :
    ∀ (l q : List String),
      (∀ a ∈ l, ∀ b ∈ l, ∀ k : Nat, a ≠ b ++ "_" ++ natStr (k + 1)) →
      (specOut q l).Nodup := by
  intro l
  induction l with
  | nil => intro q _; simp [specOut]
  | cons h t ih =>
    intro q hsf
    simp only [specOut, List.nodup_cons]
    constructor
    · have hnm := specOut_notMem t (q ++ [h]) h (q.count h)
        (by rw [List.count_append]; simp)
        (fun g hg k => hsf h (List.mem_cons_self h t) g (List.mem_cons_of_mem h hg) k)
        (fun g hg k => hsf g (List.mem_cons_of_mem h hg) h (List.mem_cons_self h t) k)
      simpa [specName] using hnm
    · exact ih (q ++ [h])
        (fun a ha b hb k =>
          hsf a (List.mem_cons_of_mem h ha) b (List.mem_cons_of_mem h hb) k)

theorem alookup_cons (k : String) (v : Nat) (seen : List (String × Nat)) (h : String) :
    alookup ((k, v) :: seen) h = if k = h then some v else alookup seen h := by
  unfold alookup
  by_cases hk : k = h <;> simp [List.find?_cons, hk]

theorem alookup_aset (seen : List (String × Nat)) (k : String) (v : Nat) (h : String) :
    alookup (aset seen k v) h =
      if h = k then (alookup seen h).map (fun _ => v) else alookup seen h := by
  induction seen with
  | nil =>
    by_cases hk : h = k <;> simp [aset, alookup, hk]
  | cons e s ih =>
    obtain ⟨a, b⟩ := e
    have hstep : aset ((a, b) :: s) k v =
        (if a = k then (k, v) else (a, b)) :: aset s k v := rfl
    rw [hstep]
    by_cases hak : a = k
    · rw [if_pos hak, alookup_cons]
      by_cases hhk : h = k
      · rw [if_pos hhk.symm, if_pos hhk, alookup_cons,
          if_pos (hak.trans hhk.symm)]
        rfl
      · rw [if_neg (fun he => hhk he.symm), ih, if_neg hhk, if_neg hhk,
          alookup_cons, if_neg (fun he : a = h => hhk (he.symm.trans hak))]
    · rw [if_neg hak, alookup_cons]
      by_cases hah : a = h
      · have hhk : ¬ h = k := fun he => hak (hah.trans he)
        rw [if_pos hah, if_neg hhk, alookup_cons, if_pos hah]
      · rw [if_neg hah, ih]
        by_cases hhk : h = k
        · rw [if_pos hhk, if_pos hhk, alookup_cons, if_neg hah]
        · rw [if_neg hhk, if_neg hhk, alookup_cons, if_neg hah]

/-- The `seen` dict agrees with occurrence counts over the processed
prefix `p`: a key is present iff it occurred, with counter
`count − 1`. -/
def SeenSpec (p : List String) (seen : List (String × Nat)) : Prop :=
  ∀ h : String, alookup seen h = if p.count h = 0 then none else some (p.count h - 1)

theorem seenSpec_nil : SeenSpec [] [] := by
  intro h
  simp [alookup]

/-- The stateful worker of `make_headers_unique` computes the stateless
renaming. -/
theorem mhuGo_eq_specOut :
    ∀ (l p : List String) (seen : List (String × Nat)),
      SeenSpec p seen → mhuGo seen l = specOut p l := by
  intro l
  induction l with
  | nil => intro p seen _; rfl
  | cons h t ih =>
    intro p seen hs
    simp only [mhuGo, specOut]
    have hh := hs h
    cases hl : alookup seen h with
    | none =>
      dsimp only
      rw [hl] at hh
      have hcnt : p.count h = 0 := by
        by_cases hc : p.count h = 0
        · exact hc
        · rw [if_neg hc] at hh
          exact absurd hh (by simp)
      rw [specName, if_pos hcnt]
      congr 1
      apply ih (p ++ [h]) ((h, 0) :: seen)
      intro g
      rw [alookup_cons]
      by_cases hg : h = g
      · subst hg
        rw [if_pos rfl, List.count_append]
        simp [hcnt]
      · rw [if_neg hg, List.count_append, hs g]
        have hz : List.count g [h] = 0 := by
          rw [List.count_eq_zero]
          intro hmem
          exact hg (List.mem_singleton.mp hmem).symm
        rw [hz]
        simp
    | some c =>
      dsimp only
      rw [hl] at hh
      have hcnt : p.count h ≠ 0 ∧ c = p.count h - 1 := by
        by_cases hc : p.count h = 0
        · rw [if_pos hc] at hh
          exact absurd hh (by simp)
        · rw [if_neg hc] at hh
          simp only [Option.some.injEq] at hh
          exact ⟨hc, hh⟩
      rw [specName, if_neg hcnt.1]
      have hc1 : c + 1 = p.count h := by omega
      rw [← hc1]
      congr 1
      apply ih (p ++ [h]) (aset seen h (c + 1))
      intro g
      rw [alookup_aset]
      by_cases hg : g = h
      · rw [if_pos hg, hg, hl, List.count_append]
        have hone : List.count h [h] = 1 := by simp
        rw [hone, if_neg (by omega)]
        show some (c + 1) = some (List.count h p + 1 - 1)
        rw [Option.some.injEq]
        omega
      · rw [if_neg hg, List.count_append, hs g]
        have hz : List.count g [h] = 0 := by
          rw [List.count_eq_zero]
          intro hmem
          exact hg (List.mem_singleton.mp hmem)
        rw [hz]
        simp

theorem make_headers_unique_eq (headers : List String) :
    make_headers_unique headers = specOut [] headers :=
  mhuGo_eq_specOut headers [] [] seenSpec_nil

/-- C8, counterexample: header normalization of `["foo", "foo_1", "foo"]`
yields `["foo", "foo_1", "foo_1"]` — the second and third entries
coincide, so normalized header lists are not always pairwise
distinct. -/
theorem C8_counterexample :
    (normalize_headers ["foo", "foo_1", "foo"] false).1 =
        ["foo", "foo_1", "foo_1"] ∧
      ¬ (normalize_headers ["foo", "foo_1", "foo"] false).1.Nodup := by
  decide

/-- C8, amended: the normalized header list is pairwise distinct whenever
no pre-deduplication entry equals another entry followed by `_k` for some
`k ≥ 1` (the de-dup suffixes can otherwise collide with pre-existing
names). -/
theorem normalize_headers_nodup (headers : List String) (is_csv : Bool)
    (hsf : ∀ a ∈ (nhRaw headers is_csv).1, ∀ b ∈ (nhRaw headers is_csv).1,
      ∀ k : Nat, a ≠ b ++ "_" ++ natStr (k + 1)) :
    (normalize_headers headers is_csv).1.Nodup := by
  unfold normalize_headers
  dsimp only
  rw [make_headers_unique_eq]
  exact specOut_nodup _ [] hsf

/-- C8 amended, witness: `["a", "a", "b"]` (no suffix-shaped names)
normalizes to a duplicate-free list. -/
theorem normalize_headers_nodup_witness :
    (normalize_headers ["a", "a", "b"] false).1.Nodup :=
  normalize_headers_nodup ["a", "a", "b"] false (by
    intro a ha b hb k
    have hra : (nhRaw ["a", "a", "b"] false).1 = ["a", "a", "b"] := by decide
    rw [hra] at ha hb
    have hla : a.data.length = 1 := by
      simp only [List.mem_cons, List.not_mem_nil, or_false] at ha
      rcases ha with ha | ha | ha <;> subst ha <;> decide
    exact ne_sfx_of_short a b (by omega) k)

end BankChunker
